import Mathlib

/-!
# Startup sequencing of the Daytona agent (`pkg/agent/agent.go`)

A shallow embedding of `Agent.Start`, `Agent.getProject`, `Agent.getGitProvider`
and `Agent.getGitUserData`.

* Go pointers that the source dereferences or compares with `nil` are `Option`s.
* A `(value, error)` result is an `Except Err value`; an `error` result is an
  `Except Err Unit` (`.ok ()` is the `nil` error).
* The outside world (control plane, file system, services, scheduler) is an
  abstract state `σ`; every collaborator is a function on it, applied to the
  state left by the call before it.  Each completed call is appended to a trace
  together with its arguments and result, each logrus line to a log.
* The `go` statement appends the spawn to the trace and leaves the world to the
  scheduler (`Env.Go`); the goroutine is not waited on.
* A nil-pointer dereference ends the run with `Outcome.panic`.
-/

namespace Agent

/-- Go `error` values, identified by their message. -/
abbrev Err := String

instance instDecidableEqExcept {ε α : Type} [DecidableEq ε] [DecidableEq α] :
    DecidableEq (Except ε α)
  | .ok a, .ok b => if h : a = b then isTrue (by rw [h]) else isFalse (by intro h1; cases h1; exact h rfl)
  | .error a, .error b =>
    if h : a = b then isTrue (by rw [h]) else isFalse (by intro h1; cases h1; exact h rfl)
  | .ok _, .error _ => isFalse (by intro h1; cases h1)
  | .error _, .ok _ => isFalse (by intro h1; cases h1)

/-- `serverapiclient.GitRepository`: `Url` is a `*string` (line 26 compares it with `nil`). -/
structure GitRepository where
  Url : Option String
  deriving DecidableEq, Repr

/-- `serverapiclient.Project`: `Name` is dereferenced on line 87, `Repository` on line 26. -/
structure Project where
  Name : Option String
  Repository : Option GitRepository
  deriving DecidableEq, Repr

/-- `serverapiclient.Workspace`: an identifier and the ordered project sequence. -/
structure Workspace where
  Id : String
  Projects : List Project
  deriving DecidableEq, Repr

/-- `serverapiclient.GitProvider`: `Id` is dereferenced on line 59, `Token` is copied on line 37. -/
structure GitProvider where
  Id : Option String
  Token : Option String
  deriving DecidableEq, Repr

/-- `serverapiclient.GitUserData`: the name/email identity. -/
structure GitUserData where
  Name : String
  Email : String
  deriving DecidableEq, Repr

/-- `serverapiclient.ServerConfig`, of which only `GitProviders` is read (line 106). -/
structure ServerConfig where
  GitProviders : List GitProvider
  deriving DecidableEq, Repr

/-- The `*http.Response` handed to `apiclient.HandleErrorResponse`. -/
structure Response where
  StatusCode : Nat
  Body : String
  deriving DecidableEq, Repr

/-- The agent configuration `a.Config`. -/
structure AgentConfig where
  WorkspaceId : String
  ProjectName : String
  deriving DecidableEq, Repr

/-- The three pointer dereferences of the file that no `nil` check guards. -/
inductive DerefSite where
  | projectName
  | projectRepository
  | gitProviderId
  deriving DecidableEq, Repr

/-- How a Go call ends: it returns a value, or it panics on a nil pointer. -/
inductive Outcome (α : Type) where
  | ret (value : α)
  | panic (site : DerefSite)
  deriving DecidableEq, Repr

/-- One completed collaborator call with its arguments and result; `goSshStart` is the
`go` statement of line 70, which returns at once and has no result. -/
inductive Event where
  | getWorkspace (workspaceId : String) (res : Except Err Workspace)
  | getApiClient (res : Except Err Unit)
  | getConfig (res : Except (Option Response × Err) ServerConfig)
  | repositoryExists (project : Project) (res : Except Err Bool)
  | cloneRepository (project : Project) (authToken : Option String) (res : Except Err Unit)
  | getGitUserData (gitProviderId : String) (res : Except (Option Response × Err) (Option GitUserData))
  | setGitConfig (userData : Option GitUserData) (res : Except Err Unit)
  | goSshStart
  | tailscaleStart (res : Except Err Unit)
  deriving DecidableEq

/-- The collaborator operations, without arguments and results. -/
inductive Op where
  | getWorkspace
  | getApiClient
  | getConfig
  | repositoryExists
  | cloneRepository
  | getGitUserData
  | setGitConfig
  | goSshStart
  | tailscaleStart
  deriving DecidableEq, Repr

/-- The operation an event is a call of. -/
def Event.op : Event → Op
  | .getWorkspace _ _ => .getWorkspace
  | .getApiClient _ => .getApiClient
  | .getConfig _ => .getConfig
  | .repositoryExists _ _ => .repositoryExists
  | .cloneRepository _ _ _ => .cloneRepository
  | .getGitUserData _ _ => .getGitUserData
  | .setGitConfig _ _ => .setGitConfig
  | .goSshStart => .goSshStart
  | .tailscaleStart _ => .tailscaleStart

/-- The logrus levels the file uses. -/
inductive Level where
  | info
  | error
  deriving DecidableEq, Repr

/-- The state of a run: the outside world, the calls completed so far, the log lines. -/
structure Run (σ : Type) where
  world : σ
  trace : List Event
  logs : List (Level × String)
  deriving DecidableEq

/-- The state a run begins in: nothing called, nothing logged. -/
def Run.init {σ : Type} (w : σ) : Run σ := { world := w, trace := [], logs := [] }

/-- A Go computation: from a run state to an outcome and the run state it leaves. -/
def M (σ : Type) (α : Type) : Type := Run σ → Outcome α × Run σ

/-- Sequencing: a panic in the first computation ends the run. -/
def M.bind {σ α β : Type} (m : M σ α) (f : α → M σ β) : M σ β := fun r =>
  match m r with
  | (.ret a, r1) => f a r1
  | (.panic s, r1) => (.panic s, r1)

instance {σ : Type} : Monad (M σ) where
  pure a := fun r => (.ret a, r)
  bind := M.bind

/-- A call of a collaborator: it runs on the current world, and the completed call is
appended to the trace. -/
def call {σ α : Type} (ev : α → Event) (f : σ → α × σ) : M σ α := fun r =>
  let res := f r.world
  (.ret res.1, { r with world := res.2, trace := r.trace ++ [ev res.1] })

/-- The logrus call `log.Info(msg)`. -/
def logInfo {σ : Type} (msg : String) : M σ Unit := fun r =>
  (.ret (), { r with logs := r.logs ++ [(Level.info, msg)] })

/-- The logrus call `log.Error(msg)`. -/
def logError {σ : Type} (msg : String) : M σ Unit := fun r =>
  (.ret (), { r with logs := r.logs ++ [(Level.error, msg)] })

/-- The dereference `*p`: a nil pointer panics. -/
def deref {σ α : Type} (site : DerefSite) : Option α → M σ α
  | some v => pure v
  | none => fun r => (.panic site, r)

/-- A computation that touches neither the world nor the trace. -/
def liftOutcome {σ α : Type} (o : Outcome α) : M σ α := fun r => (o, r)

/-- The source-control component `a.Git`. -/
structure GitService (σ : Type) where
  RepositoryExists : Project → σ → Except Err Bool × σ
  CloneRepository : Project → Option String → σ → Except Err Unit × σ
  SetGitConfig : Option GitUserData → σ → Except Err Unit × σ

/-- A long-running service with a blocking `Start` (`a.Ssh`, `a.Tailscale`). -/
structure Server (σ : Type) where
  Start : σ → Except Err Unit × σ

/-- What the file calls and does not define, taken as parameters: the functions of the
packages `server`, `apiclient`, `serverapiclient` and `gitprovider`, and the `go` statement
of the runtime.  A fetch yields its value or an error, host matching yields an optional
provider and never errors, user data may be absent without an error, and
`HandleErrorResponse` yields the error to report.  `Go task w` is the world in which the
caller of `go task()` continues: the scheduler may have let the task run, in part or
whole, or not at all. -/
structure Env (σ : Type) where
  GetWorkspace : String → σ → Except Err Workspace × σ
  GetApiClient : σ → Except Err Unit × σ
  GetConfig : σ → Except (Option Response × Err) ServerConfig × σ
  GetGitUserData : String → σ → Except (Option Response × Err) (Option GitUserData) × σ
  HandleErrorResponse : Option Response → Err → Err
  GetGitProviderFromHost : String → List GitProvider → Option GitProvider
  Go : (σ → Except Err Unit × σ) → σ → σ

end Agent

/-- The receiver of `Start`: the configuration and the three injected components. -/
structure Agent (σ : Type) where
  Config : Agent.AgentConfig
  Git : Agent.GitService σ
  Ssh : Agent.Server σ
  Tailscale : Agent.Server σ

namespace Agent

/-- The loop of lines 86-92: the first project whose name equals `projectName`; the
comparison dereferences `project.Name`. -/
def scanProjects (projectName : String) : List Project → Outcome (Except Err Project)
  | [] => .ret (.error "project not found")
  | project :: rest =>
    match project.Name with
    | none => .panic DerefSite.projectName
    | some name => if name = projectName then .ret (.ok project) else scanProjects projectName rest

/-- The method `getProject` (lines 80-93). -/
def getProject {σ : Type} (env : Env σ) (a : Agent σ) : M σ (Except Err Project) := do
  match ← call (Event.getWorkspace a.Config.WorkspaceId) (env.GetWorkspace a.Config.WorkspaceId) with
  | .error err => pure (.error err)
  | .ok workspace => liftOutcome (scanProjects a.Config.ProjectName workspace.Projects)

/-- The method `getGitProvider` (lines 95-112). -/
def getGitProvider {σ : Type} (env : Env σ) (_a : Agent σ) (repoUrl : String) :
    M σ (Except Err (Option GitProvider)) := do
  match ← call Event.getApiClient env.GetApiClient with
  | .error err => pure (.error err)
  | .ok _ =>
    match ← call Event.getConfig env.GetConfig with
    | .error (res, err) => pure (.error (env.HandleErrorResponse res err))
    | .ok serverConfig =>
      match env.GetGitProviderFromHost repoUrl serverConfig.GitProviders with
      | some gitProvider => pure (.ok (some gitProvider))
      | none => pure (.ok none)

/-- The method `getGitUserData` (lines 114-126). -/
def getGitUserData {σ : Type} (env : Env σ) (_a : Agent σ) (gitProviderId : String) :
    M σ (Except Err (Option GitUserData)) := do
  match ← call Event.getApiClient env.GetApiClient with
  | .error err => pure (.error err)
  | .ok _ =>
    match ← call (Event.getGitUserData gitProviderId) (env.GetGitUserData gitProviderId) with
    | .error (res, err) => pure (.error (env.HandleErrorResponse res err))
    | .ok userData => pure (.ok userData)

/-- Lines 40-55 of `Start`: the existence check and, when it reports absence, the clone. -/
def materializeRepository {σ : Type} (a : Agent σ) (project : Project)
    (authToken : Option String) : M σ Unit := do
  match ← call (Event.repositoryExists project) (a.Git.RepositoryExists project) with
  | .error err => logError ("failed to clone repository: " ++ err)
  | .ok true => logInfo "Repository already exists. Skipping clone..."
  | .ok false =>
    logInfo "Cloning repository..."
    match ← call (Event.cloneRepository project authToken)
        (a.Git.CloneRepository project authToken) with
    | .error err => logError ("failed to clone repository: " ++ err)
    | .ok _ => logInfo "Repository cloned"

/-- Lines 57-63 of `Start`: the user data of the matched provider, `nil` without one or
when the lookup fails. -/
def fetchGitUserData {σ : Type} (env : Env σ) (a : Agent σ) :
    Option GitProvider → M σ (Option GitUserData)
  | none => pure none
  | some gitProvider => do
    let id ← deref DerefSite.gitProviderId gitProvider.Id
    match ← getGitUserData env a id with
    | .error err => do
      logError ("failed to get git user data: " ++ err)
      pure none
    | .ok gitUserData => pure gitUserData

/-- The `go` statement of lines 70-75: the goroutine that runs `a.Ssh.Start()` is handed
to the scheduler and the statement returns at once.  The error line the goroutine may log
is written from within the task and is no part of the log kept here. -/
def goSshStart {σ : Type} (env : Env σ) (a : Agent σ) : M σ Unit :=
  call (fun (_ : Unit) => Event.goSshStart) (fun w => ((), env.Go a.Ssh.Start w))

/-- Lines 65-77 of `Start`: the git configuration, the spawn of the shell task, and the
blocking start of the mesh-network service, whose result is returned. -/
def configureAndLaunch {σ : Type} (env : Env σ) (a : Agent σ)
    (gitUserData : Option GitUserData) : M σ (Except Err Unit) := do
  match ← call (Event.setGitConfig gitUserData) (a.Git.SetGitConfig gitUserData) with
  | .error err => logError ("failed to set git config: " ++ err)
  | .ok _ => pure ()
  goSshStart env a
  call Event.tailscaleStart a.Tailscale.Start

/-- The method `Start` (lines 18-78). -/
def Start {σ : Type} (env : Env σ) (a : Agent σ) : M σ (Except Err Unit) := do
  logInfo "Starting Daytona Agent"
  match ← getProject env a with
  | .error err => pure (.error err)
  | .ok project =>
    let repository ← deref DerefSite.projectRepository project.Repository
    match repository.Url with
    | none => pure (.error "repository url not found")
    | some url =>
      match ← getGitProvider env a url with
      | .error err => pure (.error err)
      | .ok gitProvider =>
        let authToken : Option String :=
          match gitProvider with
          | some gp => gp.Token
          | none => none
        materializeRepository a project authToken
        let gitUserData ← fetchGitUserData env a gitProvider
        configureAndLaunch env a gitUserData

/-- Every entry up to and including the first one named `projectName` (every entry, when
none is so named) has its name set: the entries the loop of `getProject` visits. -/
def namesSetUpToMatch (projectName : String) : List Project → Bool
  | [] => true
  | project :: rest =>
    match project.Name with
    | none => false
    | some name => if name = projectName then true else namesSetUpToMatch projectName rest

/-- Replays a trace from the world `w`: every recorded call is made again, in the world
the call before it left, and must give the recorded result; the spawn hands the shell task
to the scheduler.  The result is the world after the last call. -/
def replay {σ : Type} (env : Env σ) (a : Agent σ) : σ → List Event → Option σ
  | w, [] => some w
  | w, Event.getWorkspace workspaceId res :: rest =>
    if (env.GetWorkspace workspaceId w).1 = res then
      replay env a (env.GetWorkspace workspaceId w).2 rest
    else none
  | w, Event.getApiClient res :: rest =>
    if (env.GetApiClient w).1 = res then replay env a (env.GetApiClient w).2 rest else none
  | w, Event.getConfig res :: rest =>
    if (env.GetConfig w).1 = res then replay env a (env.GetConfig w).2 rest else none
  | w, Event.repositoryExists project res :: rest =>
    if (a.Git.RepositoryExists project w).1 = res then
      replay env a (a.Git.RepositoryExists project w).2 rest
    else none
  | w, Event.cloneRepository project authToken res :: rest =>
    if (a.Git.CloneRepository project authToken w).1 = res then
      replay env a (a.Git.CloneRepository project authToken w).2 rest
    else none
  | w, Event.getGitUserData gitProviderId res :: rest =>
    if (env.GetGitUserData gitProviderId w).1 = res then
      replay env a (env.GetGitUserData gitProviderId w).2 rest
    else none
  | w, Event.setGitConfig userData res :: rest =>
    if (a.Git.SetGitConfig userData w).1 = res then
      replay env a (a.Git.SetGitConfig userData w).2 rest
    else none
  | w, Event.goSshStart :: rest => replay env a (env.Go a.Ssh.Start w) rest
  | w, Event.tailscaleStart res :: rest =>
    if (a.Tailscale.Start w).1 = res then replay env a (a.Tailscale.Start w).2 rest else none

/-! ### Concrete scenarios

The world of the scenarios is the number of collaborator calls completed so far. -/

/-- The project of the scenario of the spec. -/
def appProject : Project :=
  { Name := some "app", Repository := some { Url := some "https://git.example.com/org/app" } }

/-- The workspace of the scenario of the spec. -/
def ws1 : Workspace := { Id := "ws1", Projects := [appProject] }

/-- A project whose name pointer is nil. -/
def unnamedProject : Project := { Name := none, Repository := some { Url := none } }

/-- A project named "app" whose repository has no URL. -/
def appNoUrl : Project := { Name := some "app", Repository := some { Url := none } }

/-- A project named "app" that carries no repository metadata. -/
def appNoRepository : Project := { Name := some "app", Repository := none }

/-- A second project named "app", at another URL. -/
def appFork : Project :=
  { Name := some "app", Repository := some { Url := some "https://git.example.com/fork/app" } }

/-- A project with another name. -/
def docsProject : Project :=
  { Name := some "docs", Repository := some { Url := some "https://git.example.com/org/docs" } }

/-- A provider with identifier and token. -/
def exampleProvider : GitProvider := { Id := some "gitea", Token := some "secret" }

/-- A provider whose identifier pointer is nil. -/
def anonymousProvider : GitProvider := { Id := none, Token := some "secret" }

/-- An environment with fixed results; host matching picks the first configured provider,
so an empty provider list is "no provider matches"; a spawned task runs at once. -/
def exampleEnv (workspace : Except Err Workspace) (apiClient : Except Err Unit)
    (config : Except (Option Response × Err) ServerConfig)
    (userData : Except (Option Response × Err) (Option GitUserData)) : Env Nat where
  GetWorkspace := fun _ w => (workspace, w + 1)
  GetApiClient := fun w => (apiClient, w + 1)
  GetConfig := fun w => (config, w + 1)
  GetGitUserData := fun _ w => (userData, w + 1)
  HandleErrorResponse := fun res err =>
    match res with
    | none => err
    | some response => response.Body
  GetGitProviderFromHost := fun _ providers => providers.head?
  Go := fun task w => (task w).2

/-- An agent for workspace "ws1" and project "app" whose components have fixed results. -/
def exampleAgent (existsRes : Except Err Bool) (cloneRes setConfigRes sshRes meshRes : Except Err Unit) :
    Agent Nat where
  Config := { WorkspaceId := "ws1", ProjectName := "app" }
  Git :=
    { RepositoryExists := fun _ w => (existsRes, w + 1)
      CloneRepository := fun _ _ w => (cloneRes, w + 1)
      SetGitConfig := fun _ w => (setConfigRes, w + 1) }
  Ssh := { Start := fun w => (sshRes, w + 1) }
  Tailscale := { Start := fun w => (meshRes, w + 1) }

/-- An environment that fetches the given workspace, with the given providers configured
and a user-data lookup that succeeds. -/
def workspaceEnv (workspace : Workspace) (providers : List GitProvider) : Env Nat :=
  exampleEnv (.ok workspace) (.ok ()) (.ok { GitProviders := providers })
    (.ok (some { Name := "Ada", Email := "ada@example.com" }))

/-- The scenario of the spec: workspace "ws1", no provider configured. -/
def scenarioEnv : Env Nat := workspaceEnv ws1 []

/-- The scenario "ws1" with a matching provider whose user-data lookup fails. -/
def providerEnv : Env Nat :=
  exampleEnv (.ok ws1) (.ok ()) (.ok { GitProviders := [exampleProvider] })
    (.error (some { StatusCode := 500, Body := "user data unavailable" }, "500"))

/-- The scenario "ws1" with a matching provider whose identifier is nil. -/
def anonymousEnv : Env Nat := workspaceEnv ws1 [anonymousProvider]

/-- A control plane whose workspace fetch fails. -/
def offlineEnv : Env Nat :=
  exampleEnv (.error "connection refused") (.ok ()) (.ok { GitProviders := [] }) (.ok none)

/-- The scenario "ws1" when the API client cannot be obtained. -/
def noClientEnv : Env Nat :=
  exampleEnv (.ok ws1) (.error "no server url") (.ok { GitProviders := [] }) (.ok none)

/-- The scenario "ws1" when the server-configuration fetch fails. -/
def noConfigEnv : Env Nat :=
  exampleEnv (.ok ws1) (.ok ())
    (.error (some { StatusCode := 503, Body := "server unavailable" }, "503")) (.ok none)

/-- The agent of the scenario of the spec: the repository is absent and every component
succeeds. -/
def scenarioAgent : Agent Nat := exampleAgent (.ok false) (.ok ()) (.ok ()) (.ok ()) (.ok ())

/-- An agent whose clone, git configuration, shell and mesh-network service all fail. -/
def failingAgent : Agent Nat :=
  exampleAgent (.ok false) (.error "clone failed") (.error "config failed")
    (.error "ssh failed") (.error "mesh down")

/-- Running `pure`. -/
theorem run_pure {σ : Type} {α : Type} (x : α) (r : Run σ) : (pure x : M σ α) r = (.ret x, r) := rfl

/-- Running a sequence: the second computation starts in the state the first left. -/
theorem run_bind {σ : Type} {α β : Type} (m : M σ α) (f : α → M σ β) (r : Run σ) :
    (m >>= f) r = match m r with
      | (.ret x, r1) => f x r1
      | (.panic s, r1) => (.panic s, r1) := rfl

/-- What `getProject` does, by the result of the workspace fetch. -/
theorem getProject_run {σ : Type} (env : Env σ) (a : Agent σ) (r : Run σ) :
    getProject env a r =
      ((match (env.GetWorkspace a.Config.WorkspaceId r.world).1 with
        | .error e => .ret (.error e)
        | .ok ws => scanProjects a.Config.ProjectName ws.Projects),
       { r with
         world := (env.GetWorkspace a.Config.WorkspaceId r.world).2,
         trace := r.trace ++ [Event.getWorkspace a.Config.WorkspaceId
           (env.GetWorkspace a.Config.WorkspaceId r.world).1] }) := by
  rcases h : env.GetWorkspace a.Config.WorkspaceId r.world with ⟨res, w⟩
  cases res <;> simp [getProject, call, liftOutcome, run_bind, run_pure, h]

/-- The repository step returns, after the existence check alone or the check and the
clone. -/
theorem materializeRepository_run {σ : Type} (a : Agent σ) (project : Project) (tok : Option String)
    (r : Run σ) :
    ∃ r1, materializeRepository a project tok r = (.ret (), r1) ∧
      (((a.Git.RepositoryExists project r.world).1 = .ok false ∧
          r1.trace = r.trace ++ [Event.repositoryExists project (.ok false),
            Event.cloneRepository project tok
              (a.Git.CloneRepository project tok (a.Git.RepositoryExists project r.world).2).1] ∧
          r1.world =
            (a.Git.CloneRepository project tok (a.Git.RepositoryExists project r.world).2).2) ∨
        ((a.Git.RepositoryExists project r.world).1 ≠ .ok false ∧
          r1.trace = r.trace ++
            [Event.repositoryExists project (a.Git.RepositoryExists project r.world).1] ∧
          r1.world = (a.Git.RepositoryExists project r.world).2)) := by
  rcases h : a.Git.RepositoryExists project r.world with ⟨eres, w1⟩
  rcases eres with e | b
  · simp [materializeRepository, call, logError, run_bind, run_pure, h]
  · cases b
    · rcases h2 : a.Git.CloneRepository project tok w1 with ⟨cres, w2⟩
      cases cres <;>
        simp [materializeRepository, call, logError, logInfo, run_bind, run_pure, h, h2]
    · simp [materializeRepository, call, logInfo, run_bind, run_pure, h]

/-- What `getGitProvider` does, by the results of its two calls. -/
theorem getGitProvider_run {σ : Type} (env : Env σ) (a : Agent σ) (url : String) (r : Run σ) :
    getGitProvider env a url r =
      match env.GetApiClient r.world with
      | (.error e, w1) =>
        (.ret (.error e), { r with world := w1, trace := r.trace ++ [Event.getApiClient (.error e)] })
      | (.ok u, w1) =>
        match env.GetConfig w1 with
        | (.error (res, e), w2) =>
          (.ret (.error (env.HandleErrorResponse res e)),
            { r with world := w2, trace := r.trace ++
              [Event.getApiClient (.ok u), Event.getConfig (.error (res, e))] })
        | (.ok cfg, w2) =>
          (.ret (.ok (env.GetGitProviderFromHost url cfg.GitProviders)),
            { r with world := w2, trace := r.trace ++
              [Event.getApiClient (.ok u), Event.getConfig (.ok cfg)] }) := by
  rcases h : env.GetApiClient r.world with ⟨res, w1⟩
  cases res with
  | error e => simp [getGitProvider, call, run_bind, run_pure, h]
  | ok u =>
    rcases h2 : env.GetConfig w1 with ⟨res2, w2⟩
    cases res2 with
    | error e => simp [getGitProvider, call, run_bind, run_pure, h, h2]
    | ok cfg =>
      cases h3 : env.GetGitProviderFromHost url cfg.GitProviders <;>
        simp [getGitProvider, call, run_bind, run_pure, h, h2, h3]

/-- What `getGitUserData` does, by the results of its two calls. -/
theorem getGitUserData_run {σ : Type} (env : Env σ) (a : Agent σ) (id : String) (r : Run σ) :
    getGitUserData env a id r =
      match env.GetApiClient r.world with
      | (.error e, w1) =>
        (.ret (.error e), { r with world := w1, trace := r.trace ++ [Event.getApiClient (.error e)] })
      | (.ok u, w1) =>
        match env.GetGitUserData id w1 with
        | (.error (res, e), w2) =>
          (.ret (.error (env.HandleErrorResponse res e)),
            { r with world := w2, trace := r.trace ++
              [Event.getApiClient (.ok u), Event.getGitUserData id (.error (res, e))] })
        | (.ok ud, w2) =>
          (.ret (.ok ud), { r with world := w2, trace := r.trace ++
              [Event.getApiClient (.ok u), Event.getGitUserData id (.ok ud)] }) := by
  rcases h : env.GetApiClient r.world with ⟨res, w1⟩
  cases res with
  | error e => simp [getGitUserData, call, run_bind, run_pure, h]
  | ok u =>
    rcases h2 : env.GetGitUserData id w1 with ⟨res2, w2⟩
    cases res2 <;> simp [getGitUserData, call, run_bind, run_pure, h, h2]

/-- The user-data step with a provider whose identifier is set: it returns, and it calls
the API client and then, at most, the user-data lookup. -/
theorem fetchGitUserData_some {σ : Type} (env : Env σ) (a : Agent σ) (gp : GitProvider) (id : String)
    (hid : gp.Id = some id) (r : Run σ) :
    ∃ ud r1 evs, fetchGitUserData env a (some gp) r = (.ret ud, r1) ∧
      r1.trace = r.trace ++ evs ∧
      ((∃ e, evs = [Event.getApiClient (.error e)]) ∨
        (∃ res, evs = [Event.getApiClient (.ok ()), Event.getGitUserData id res])) := by
  rcases h : env.GetApiClient r.world with ⟨res, w1⟩
  cases res with
  | error e =>
    simp only [fetchGitUserData, deref, hid, run_bind, run_pure, getGitUserData_run, h, logError]
    exact ⟨_, _, _, rfl, rfl, Or.inl ⟨_, rfl⟩⟩
  | ok u =>
    rcases h2 : env.GetGitUserData id w1 with ⟨res2, w2⟩
    cases res2 <;>
      simp only [fetchGitUserData, deref, hid, run_bind, run_pure, getGitUserData_run, h, h2,
        logError] <;>
      exact ⟨_, _, _, rfl, rfl, Or.inr ⟨_, rfl⟩⟩

/-- Without a provider the user-data step makes no call and yields nil. -/
theorem fetchGitUserData_none {σ : Type} (env : Env σ) (a : Agent σ) (r : Run σ) :
    fetchGitUserData env a none r = (.ret none, r) := rfl

/-- With a provider whose identifier is nil the user-data step panics at once. -/
theorem fetchGitUserData_nil_id {σ : Type} (env : Env σ) (a : Agent σ) (gp : GitProvider)
    (hid : gp.Id = none) (r : Run σ) :
    fetchGitUserData env a (some gp) r = (.panic DerefSite.gitProviderId, r) := by
  simp [fetchGitUserData, deref, hid, run_bind]

/-- The last block returns what the mesh-network start returned, after the git
configuration and the spawn. -/
theorem configureAndLaunch_run {σ : Type} (env : Env σ) (a : Agent σ) (ud : Option GitUserData)
    (r : Run σ) :
    ∃ r1, configureAndLaunch env a ud r =
        (.ret (a.Tailscale.Start
          (env.Go a.Ssh.Start (a.Git.SetGitConfig ud r.world).2)).1, r1) ∧
      r1.trace = r.trace ++ [Event.setGitConfig ud (a.Git.SetGitConfig ud r.world).1,
        Event.goSshStart,
        Event.tailscaleStart (a.Tailscale.Start
          (env.Go a.Ssh.Start (a.Git.SetGitConfig ud r.world).2)).1] ∧
      r1.world =
        (a.Tailscale.Start (env.Go a.Ssh.Start (a.Git.SetGitConfig ud r.world).2)).2 := by
  rcases h : a.Git.SetGitConfig ud r.world with ⟨res, w1⟩
  cases res <;>
    simp [configureAndLaunch, goSshStart, call, logError, run_bind, run_pure, h]

/-- The run of `Start` up to and including the git-provider resolution, when steps 1 to 3
succeed: the rest is the three later blocks run from the state reached. -/
theorem Start_resolved {σ : Type} (env : Env σ) (a : Agent σ) (r : Run σ)
    {ws : Workspace} {w1 w2 w3 : σ} {p : Project} {repo : GitRepository} {url : String}
    {cfg : ServerConfig}
    (hws : env.GetWorkspace a.Config.WorkspaceId r.world = (.ok ws, w1))
    (hp : scanProjects a.Config.ProjectName ws.Projects = .ret (.ok p))
    (hrepo : p.Repository = some repo) (hurl : repo.Url = some url)
    (hapi : env.GetApiClient w1 = (.ok (), w2))
    (hcfg : env.GetConfig w2 = (.ok cfg, w3)) :
    ∃ r3 : Run σ, r3.world = w3 ∧
      r3.trace = r.trace ++ [Event.getWorkspace a.Config.WorkspaceId (.ok ws),
        Event.getApiClient (.ok ()), Event.getConfig (.ok cfg)] ∧
      Start env a r =
        (materializeRepository a p
            (match env.GetGitProviderFromHost url cfg.GitProviders with
              | some gp => gp.Token
              | none => none) >>= fun _ =>
          fetchGitUserData env a (env.GetGitProviderFromHost url cfg.GitProviders) >>= fun ud =>
          configureAndLaunch env a ud) r3 := by
  refine ⟨{ world := w3,
             trace := r.trace ++ [Event.getWorkspace a.Config.WorkspaceId (.ok ws),
               Event.getApiClient (.ok ()), Event.getConfig (.ok cfg)],
             logs := r.logs ++ [(Level.info, "Starting Daytona Agent")] }, rfl, rfl, ?_⟩
  simp [Start, logInfo, run_bind, run_pure, getProject_run, hws, hp, deref, hrepo, hurl,
    getGitProvider_run, hapi, hcfg]

/-- The three later blocks of `Start`, run from any state: the events of the repository
step, then either the panic on a matched provider without identifier, or the events of
the user-data step followed by the git configuration and the two launches. -/
theorem tail_run {σ : Type} (env : Env σ) (a : Agent σ) (p : Project) (tok : Option String)
    (gp : Option GitProvider) (r3 : Run σ) :
    ∃ evsA : List Event,
      ((∃ cres, (a.Git.RepositoryExists p r3.world).1 = .ok false ∧
          evsA = [Event.repositoryExists p (.ok false), Event.cloneRepository p tok cres]) ∨
        ((a.Git.RepositoryExists p r3.world).1 ≠ .ok false ∧
          evsA = [Event.repositoryExists p (a.Git.RepositoryExists p r3.world).1])) ∧
      ((∃ g, gp = some g ∧ g.Id = none ∧
          ((materializeRepository a p tok >>= fun _ =>
            fetchGitUserData env a gp >>= fun ud => configureAndLaunch env a ud) r3).1 =
            .panic DerefSite.gitProviderId ∧
          ((materializeRepository a p tok >>= fun _ =>
            fetchGitUserData env a gp >>= fun ud => configureAndLaunch env a ud) r3).2.trace =
            r3.trace ++ evsA) ∨
        (∃ evsB ud sres wT,
          ((gp = none ∧ evsB = [] ∧ ud = none) ∨
            (∃ g id, gp = some g ∧ g.Id = some id ∧
              ((∃ e, evsB = [Event.getApiClient (.error e)]) ∨
                (∃ res, evsB = [Event.getApiClient (.ok ()), Event.getGitUserData id res])))) ∧
          ((materializeRepository a p tok >>= fun _ =>
            fetchGitUserData env a gp >>= fun ud => configureAndLaunch env a ud) r3).1 =
            .ret (a.Tailscale.Start wT).1 ∧
          ((materializeRepository a p tok >>= fun _ =>
            fetchGitUserData env a gp >>= fun ud => configureAndLaunch env a ud) r3).2.trace =
            r3.trace ++ evsA ++ evsB ++
              [Event.setGitConfig ud sres, Event.goSshStart,
                Event.tailscaleStart (a.Tailscale.Start wT).1] ∧
          ((materializeRepository a p tok >>= fun _ =>
            fetchGitUserData env a gp >>= fun ud => configureAndLaunch env a ud) r3).2.world =
            (a.Tailscale.Start wT).2)) := by
  obtain ⟨r4, hA, hshape⟩ := materializeRepository_run a p tok r3
  have hA4 : ∃ evsA : List Event, r4.trace = r3.trace ++ evsA ∧
      ((∃ cres, (a.Git.RepositoryExists p r3.world).1 = .ok false ∧
          evsA = [Event.repositoryExists p (.ok false), Event.cloneRepository p tok cres]) ∨
        ((a.Git.RepositoryExists p r3.world).1 ≠ .ok false ∧
          evsA = [Event.repositoryExists p (a.Git.RepositoryExists p r3.world).1])) := by
    rcases hshape with ⟨h1, h2, _⟩ | ⟨h1, h2, _⟩
    · exact ⟨_, h2, Or.inl ⟨_, h1, rfl⟩⟩
    · exact ⟨_, h2, Or.inr ⟨h1, rfl⟩⟩
  obtain ⟨evsA, htr4, hshA⟩ := hA4
  refine ⟨evsA, hshA, ?_⟩
  rw [run_bind, hA]
  simp only [run_bind]
  cases gp with
  | none =>
    right
    obtain ⟨r6, hC, htr6, hw6⟩ := configureAndLaunch_run env a none r4
    refine ⟨[], none, (a.Git.SetGitConfig none r4.world).1,
      env.Go a.Ssh.Start (a.Git.SetGitConfig none r4.world).2,
      Or.inl ⟨rfl, rfl, rfl⟩, ?_, ?_, ?_⟩
    · simp only [fetchGitUserData_none, hC]
    · simp only [fetchGitUserData_none, hC]; simp [htr6, htr4]
    · simp only [fetchGitUserData_none, hC]; exact hw6
  | some g =>
    cases hid : g.Id with
    | none =>
      left
      refine ⟨g, rfl, hid, ?_, ?_⟩
      · simp only [fetchGitUserData_nil_id env a g hid]
      · simp only [fetchGitUserData_nil_id env a g hid]; exact htr4
    | some id =>
      right
      obtain ⟨ud, r5, evsB, hB, htr5, hshB⟩ := fetchGitUserData_some env a g id hid r4
      obtain ⟨r6, hC, htr6, hw6⟩ := configureAndLaunch_run env a ud r5
      refine ⟨evsB, ud, (a.Git.SetGitConfig ud r5.world).1,
        env.Go a.Ssh.Start (a.Git.SetGitConfig ud r5.world).2,
        Or.inr ⟨g, id, rfl, hid, hshB⟩, ?_, ?_, ?_⟩
      · simp only [hB, hC]
      · simp only [hB, hC]; simp [htr6, htr5, htr4]
      · simp only [hB, hC]; exact hw6

/-- Replaying a concatenation is replaying its parts in turn. -/
theorem replay_append {σ : Type} (env : Env σ) (a : Agent σ) (t2 : List Event) :
    ∀ (t1 : List Event) (w : σ),
      replay env a w (t1 ++ t2) = (replay env a w t1).bind (fun w1 => replay env a w1 t2) := by
  intro t1
  induction t1 with
  | nil => intro w; simp [replay]
  | cons ev rest ih =>
    intro w
    cases ev <;> simp only [List.cons_append, replay] <;> first | exact ih _ | (split <;> simp [ih])

/-- The calls of `getProject` continue a replayable trace. -/
theorem getProject_threaded {σ : Type} (env : Env σ) (a : Agent σ) (w0 : σ) (r : Run σ)
    (h : replay env a w0 r.trace = some r.world) :
    replay env a w0 (getProject env a r).2.trace = some (getProject env a r).2.world := by
  rcases hws : env.GetWorkspace a.Config.WorkspaceId r.world with ⟨res, w⟩
  cases res <;>
    simp [getProject, call, liftOutcome, run_bind, run_pure, hws, replay_append, h, replay]

/-- The calls of `getGitProvider` continue a replayable trace. -/
theorem getGitProvider_threaded {σ : Type} (env : Env σ) (a : Agent σ) (w0 : σ) (url : String)
    (r : Run σ) (h : replay env a w0 r.trace = some r.world) :
    replay env a w0 (getGitProvider env a url r).2.trace =
      some (getGitProvider env a url r).2.world := by
  rcases h1 : env.GetApiClient r.world with ⟨res, w1⟩
  cases res with
  | error e => simp [getGitProvider, call, run_bind, run_pure, h1, replay_append, h, replay]
  | ok u =>
    rcases h2 : env.GetConfig w1 with ⟨res2, w2⟩
    cases res2 with
    | error e =>
      simp [getGitProvider, call, run_bind, run_pure, h1, h2, replay_append, h, replay]
    | ok cfg =>
      cases h3 : env.GetGitProviderFromHost url cfg.GitProviders <;>
        simp [getGitProvider, call, run_bind, run_pure, h1, h2, h3, replay_append, h, replay]

/-- The calls of `getGitUserData` continue a replayable trace. -/
theorem getGitUserData_threaded {σ : Type} (env : Env σ) (a : Agent σ) (w0 : σ) (id : String)
    (r : Run σ) (h : replay env a w0 r.trace = some r.world) :
    replay env a w0 (getGitUserData env a id r).2.trace =
      some (getGitUserData env a id r).2.world := by
  rcases h1 : env.GetApiClient r.world with ⟨res, w1⟩
  cases res with
  | error e => simp [getGitUserData, call, run_bind, run_pure, h1, replay_append, h, replay]
  | ok u =>
    rcases h2 : env.GetGitUserData id w1 with ⟨res2, w2⟩
    cases res2 <;>
      simp [getGitUserData, call, run_bind, run_pure, h1, h2, replay_append, h, replay]

/-- The calls of the repository step continue a replayable trace. -/
theorem materializeRepository_threaded {σ : Type} (env : Env σ) (a : Agent σ) (w0 : σ)
    (p : Project) (tok : Option String) (r : Run σ)
    (h : replay env a w0 r.trace = some r.world) :
    replay env a w0 (materializeRepository a p tok r).2.trace =
      some (materializeRepository a p tok r).2.world := by
  rcases h1 : a.Git.RepositoryExists p r.world with ⟨eres, w1⟩
  rcases eres with e | b
  · simp [materializeRepository, call, logError, run_bind, run_pure, h1, replay_append, h,
      replay]
  · cases b
    · rcases h2 : a.Git.CloneRepository p tok w1 with ⟨cres, w2⟩
      cases cres <;>
        simp [materializeRepository, call, logError, logInfo, run_bind, run_pure, h1, h2,
          replay_append, h, replay]
    · simp [materializeRepository, call, logInfo, run_bind, run_pure, h1, replay_append, h,
        replay]

/-- The calls of the user-data step continue a replayable trace. -/
theorem fetchGitUserData_threaded {σ : Type} (env : Env σ) (a : Agent σ) (w0 : σ)
    (gp : Option GitProvider) (r : Run σ) (h : replay env a w0 r.trace = some r.world) :
    replay env a w0 (fetchGitUserData env a gp r).2.trace =
      some (fetchGitUserData env a gp r).2.world := by
  cases gp with
  | none => exact h
  | some g =>
    cases hid : g.Id with
    | none => simpa [fetchGitUserData, deref, hid, run_bind] using h
    | some id =>
      have hu := getGitUserData_threaded env a w0 id r h
      rcases hres : getGitUserData env a id r with ⟨o, r1⟩
      rw [hres] at hu
      rcases o with x | s
      · cases x <;>
          simpa [fetchGitUserData, deref, hid, run_bind, run_pure, hres, logError] using hu
      · simpa [fetchGitUserData, deref, hid, run_bind, run_pure, hres] using hu

/-- The calls of the last block continue a replayable trace. -/
theorem configureAndLaunch_threaded {σ : Type} (env : Env σ) (a : Agent σ) (w0 : σ)
    (ud : Option GitUserData) (r : Run σ) (h : replay env a w0 r.trace = some r.world) :
    replay env a w0 (configureAndLaunch env a ud r).2.trace =
      some (configureAndLaunch env a ud r).2.world := by
  rcases h1 : a.Git.SetGitConfig ud r.world with ⟨res, w1⟩
  cases res <;>
    simp [configureAndLaunch, goSshStart, call, logError, run_bind, run_pure, h1,
      replay_append, h, replay]

/-- The calls of the three later blocks continue a replayable trace. -/
theorem tail_threaded {σ : Type} (env : Env σ) (a : Agent σ) (w0 : σ) (p : Project)
    (tok : Option String) (gp : Option GitProvider) (r : Run σ)
    (h : replay env a w0 r.trace = some r.world) :
    replay env a w0 ((materializeRepository a p tok >>= fun _ =>
        fetchGitUserData env a gp >>= fun ud => configureAndLaunch env a ud) r).2.trace =
      some ((materializeRepository a p tok >>= fun _ =>
        fetchGitUserData env a gp >>= fun ud => configureAndLaunch env a ud) r).2.world := by
  have h3 := materializeRepository_threaded env a w0 p tok r h
  rcases hm : materializeRepository a p tok r with ⟨o3, r3⟩
  rw [hm] at h3
  have h4 := fetchGitUserData_threaded env a w0 gp r3 h3
  rcases hf : fetchGitUserData env a gp r3 with ⟨o4, r4⟩
  rw [hf] at h4
  rcases o3 with u | s
  · rcases o4 with ud | s
    · simpa [run_bind, hm, hf] using configureAndLaunch_threaded env a w0 ud r4 h4
    · simpa [run_bind, hm, hf] using h4
  · simpa [run_bind, hm] using h3

/-- Every call of a run of `Start` is made in the world the call before it left. -/
theorem Start_threaded {σ : Type} (env : Env σ) (a : Agent σ) (w0 : σ) (r : Run σ)
    (h : replay env a w0 r.trace = some r.world) :
    replay env a w0 (Start env a r).2.trace = some (Start env a r).2.world := by
  have h1 := getProject_threaded env a w0
    { r with logs := r.logs ++ [(Level.info, "Starting Daytona Agent")] } h
  rcases hgp : getProject env a
    { r with logs := r.logs ++ [(Level.info, "Starting Daytona Agent")] } with ⟨o, r1⟩
  rw [hgp] at h1
  rcases o with x | s
  · cases x with
    | error e => simpa [Start, logInfo, run_bind, run_pure, hgp] using h1
    | ok p =>
      cases hrepo : p.Repository with
      | none => simpa [Start, logInfo, run_bind, run_pure, hgp, deref, hrepo] using h1
      | some repo =>
        cases hurl : repo.Url with
        | none => simpa [Start, logInfo, run_bind, run_pure, hgp, deref, hrepo, hurl] using h1
        | some url =>
          have h2 := getGitProvider_threaded env a w0 url r1 h1
          rcases hpr : getGitProvider env a url r1 with ⟨o2, r2⟩
          rw [hpr] at h2
          rcases o2 with y | s
          · cases y with
            | error e =>
              simpa [Start, logInfo, run_bind, run_pure, hgp, deref, hrepo, hurl, hpr] using h2
            | ok gp =>
              cases gp with
              | none =>
                simpa [Start, logInfo, run_bind, run_pure, hgp, deref, hrepo, hurl, hpr] using
                  tail_threaded env a w0 p none none r2 h2
              | some g =>
                simpa [Start, logInfo, run_bind, run_pure, hgp, deref, hrepo, hurl, hpr] using
                  tail_threaded env a w0 p g.Token (some g) r2 h2
          · simpa [Start, logInfo, run_bind, run_pure, hgp, deref, hrepo, hurl, hpr] using h2
  · simpa [Start, logInfo, run_bind, run_pure, hgp] using h1

/-- What `namesSetUpToMatch` says: every entry that no entry named `projectName` precedes
has its name set. -/
theorem namesSetUpToMatch_iff (projectName : String) (ps : List Project) :
    namesSetUpToMatch projectName ps = true ↔
      ∀ pre q post, ps = pre ++ q :: post → (∀ x ∈ pre, x.Name ≠ some projectName) →
        q.Name ≠ none := by
  induction ps with
  | nil =>
    simp [namesSetUpToMatch]
  | cons p rest ih =>
    cases hn : p.Name with
    | none =>
      simp only [namesSetUpToMatch, hn, Bool.false_eq_true, false_iff, not_forall]
      exact ⟨[], p, rest, rfl, by simp, by simp [hn]⟩
    | some n =>
      by_cases hne : n = projectName
      · simp only [namesSetUpToMatch, hn, if_pos hne, true_iff]
        intro pre q post hsplit hpre
        cases pre with
        | nil =>
          simp only [List.nil_append, List.cons.injEq] at hsplit
          rw [← hsplit.1, hn]
          simp
        | cons x pre1 =>
          simp only [List.cons_append, List.cons.injEq] at hsplit
          have := hpre x (List.mem_cons_self _ _)
          rw [← hsplit.1, hn, hne] at this
          exact absurd rfl this
      · simp only [namesSetUpToMatch, hn, if_neg hne, ih]
        constructor
        · intro h pre q post hsplit hpre
          cases pre with
          | nil =>
            simp only [List.nil_append, List.cons.injEq] at hsplit
            rw [← hsplit.1, hn]
            simp
          | cons x pre1 =>
            simp only [List.cons_append, List.cons.injEq] at hsplit
            exact h pre1 q post hsplit.2 (fun y hy => hpre y (List.mem_cons_of_mem _ hy))
        · intro h pre q post hsplit hpre
          refine h (p :: pre) q post (by rw [hsplit]; rfl) ?_
          intro y hy
          rcases List.mem_cons.mp hy with rfl | hy
          · rw [hn]
            intro heq
            injection heq with heq
            exact hne heq
          · exact hpre y hy

/-- When every name is set and none equals `projectName`, the scan ends in not-found. -/
theorem scanProjects_not_found (projectName : String) (ps : List Project)
    (hset : ∀ p ∈ ps, p.Name ≠ none) (hno : ∀ p ∈ ps, p.Name ≠ some projectName) :
    scanProjects projectName ps = .ret (.error "project not found") := by
  induction ps with
  | nil => rfl
  | cons q rest ih =>
    have hq := hset q (List.mem_cons_self _ _)
    have hq2 := hno q (List.mem_cons_self _ _)
    cases hn : q.Name with
    | none => exact absurd hn hq
    | some n =>
      have hne : n ≠ projectName := by
        intro h
        exact hq2 (by rw [hn, h])
      simp only [scanProjects, hn, if_neg hne]
      exact ih (fun p hp => hset p (List.mem_cons_of_mem _ hp))
        (fun p hp => hno p (List.mem_cons_of_mem _ hp))

/-- A project the scan returns is an entry of the list and is named `projectName`. -/
theorem scanProjects_ok_name (projectName : String) (ps : List Project) (p : Project)
    (h : scanProjects projectName ps = .ret (.ok p)) : p ∈ ps ∧ p.Name = some projectName := by
  induction ps with
  | nil => simp [scanProjects] at h
  | cons q rest ih =>
    cases hn : q.Name with
    | none => simp [scanProjects, hn] at h
    | some n =>
      by_cases hne : n = projectName
      · simp only [scanProjects, hn, if_pos hne] at h
        have hqp : q = p := by
          injection h with h1
          injection h1
        subst hqp
        exact ⟨List.mem_cons_self _ _, by rw [hn, hne]⟩
      · simp only [scanProjects, hn, if_neg hne] at h
        exact ⟨List.mem_cons_of_mem _ (ih h).1, (ih h).2⟩

/-- Every run of `Start` either ends before the repository step, with an error or with
a panic on a nil name or nil repository, or passes steps 1 to 3. -/
theorem Start_cases {σ : Type} (env : Env σ) (a : Agent σ) (r : Run σ) :
    (∃ e evs, (Start env a r).1 = .ret (.error e) ∧ (Start env a r).2.trace = r.trace ++ evs ∧
      (evs.map Event.op = [Op.getWorkspace] ∨
        evs.map Event.op = [Op.getWorkspace, Op.getApiClient] ∨
        evs.map Event.op = [Op.getWorkspace, Op.getApiClient, Op.getConfig])) ∨
    (∃ ws w1 site, env.GetWorkspace a.Config.WorkspaceId r.world = (.ok ws, w1) ∧
      scanProjects a.Config.ProjectName ws.Projects = .panic site ∧
      (Start env a r).1 = .panic site ∧
      (Start env a r).2.trace = r.trace ++ [Event.getWorkspace a.Config.WorkspaceId (.ok ws)]) ∨
    (∃ ws w1 p, env.GetWorkspace a.Config.WorkspaceId r.world = (.ok ws, w1) ∧
      scanProjects a.Config.ProjectName ws.Projects = .ret (.ok p) ∧ p.Repository = none ∧
      (Start env a r).1 = .panic DerefSite.projectRepository ∧
      (Start env a r).2.trace = r.trace ++ [Event.getWorkspace a.Config.WorkspaceId (.ok ws)]) ∨
    (∃ ws w1 w2 w3 p repo url cfg,
      env.GetWorkspace a.Config.WorkspaceId r.world = (.ok ws, w1) ∧
      scanProjects a.Config.ProjectName ws.Projects = .ret (.ok p) ∧
      p.Repository = some repo ∧ repo.Url = some url ∧
      env.GetApiClient w1 = (.ok (), w2) ∧ env.GetConfig w2 = (.ok cfg, w3)) := by
  rcases hws : env.GetWorkspace a.Config.WorkspaceId r.world with ⟨wsres, w1⟩
  cases wsres with
  | error e =>
    left
    refine ⟨e, [Event.getWorkspace a.Config.WorkspaceId (.error e)], ?_, ?_, Or.inl rfl⟩ <;>
      simp [Start, logInfo, run_bind, run_pure, getProject_run, hws]
  | ok ws =>
    cases hp : scanProjects a.Config.ProjectName ws.Projects with
    | panic site =>
      right; left
      refine ⟨ws, w1, site, rfl, hp, ?_, ?_⟩ <;>
        simp [Start, logInfo, run_bind, run_pure, getProject_run, hws, hp]
    | ret res =>
      cases res with
      | error e =>
        left
        refine ⟨e, [Event.getWorkspace a.Config.WorkspaceId (.ok ws)], ?_, ?_, Or.inl rfl⟩ <;>
          simp [Start, logInfo, run_bind, run_pure, getProject_run, hws, hp]
      | ok p =>
        cases hrepo : p.Repository with
        | none =>
          right; right; left
          refine ⟨ws, w1, p, rfl, hp, hrepo, ?_, ?_⟩ <;>
            simp [Start, logInfo, run_bind, run_pure, getProject_run, hws, hp, deref, hrepo]
        | some repo =>
          cases hurl : repo.Url with
          | none =>
            left
            refine ⟨"repository url not found",
              [Event.getWorkspace a.Config.WorkspaceId (.ok ws)], ?_, ?_, Or.inl rfl⟩ <;>
              simp [Start, logInfo, run_bind, run_pure, getProject_run, hws, hp, deref, hrepo,
                hurl]
          | some url =>
            rcases hapi : env.GetApiClient w1 with ⟨apires, w2⟩
            cases apires with
            | error e =>
              left
              refine ⟨e, [Event.getWorkspace a.Config.WorkspaceId (.ok ws),
                Event.getApiClient (.error e)], ?_, ?_, Or.inr (Or.inl rfl)⟩ <;>
                simp [Start, logInfo, run_bind, run_pure, getProject_run, hws, hp, deref, hrepo,
                  hurl, getGitProvider_run, hapi]
            | ok u =>
              rcases hcfg : env.GetConfig w2 with ⟨cfgres, w3⟩
              cases cfgres with
              | error re =>
                left
                refine ⟨env.HandleErrorResponse re.1 re.2,
                  [Event.getWorkspace a.Config.WorkspaceId (.ok ws),
                    Event.getApiClient (.ok u), Event.getConfig (.error re)], ?_, ?_,
                  Or.inr (Or.inr rfl)⟩ <;>
                  simp [Start, logInfo, run_bind, run_pure, getProject_run, hws, hp, deref,
                    hrepo, hurl, getGitProvider_run, hapi, hcfg]
              | ok cfg =>
                right; right; right
                exact ⟨ws, w1, w2, w3, p, repo, url, cfg, rfl, hp, hrepo, hurl, hapi, hcfg⟩

/-- C3. If the workspace fetch fails with error `e`, `Start` returns exactly `e`, and the
workspace fetch is the only collaborator call of the run. -/
theorem start_workspace_fetch_error {σ : Type} (env : Env σ) (a : Agent σ) (w w1 : σ) (e : Err)
    (hws : env.GetWorkspace a.Config.WorkspaceId w = (.error e, w1)) :
    (Start env a (Run.init w)).1 = .ret (.error e) ∧
      (Start env a (Run.init w)).2.trace = [Event.getWorkspace a.Config.WorkspaceId (.error e)] ∧
      (Start env a (Run.init w)).2.world = w1 := by
  simp [Start, logInfo, run_bind, run_pure, getProject_run, Run.init, hws]

/-- C4 (amended). If the repository URL of the resolved project is absent, because the
project carries no repository metadata or because the metadata has no URL, the workspace
fetch is the only collaborator call of the run: no API client, no server configuration, no
user data, no source-control call, no shell spawn and no mesh-network start; and if the
project carries repository metadata, `Start` returns the error "repository url not
found". -/
theorem start_repository_url_not_found {σ : Type} (env : Env σ) (a : Agent σ) (w w1 : σ)
    (ws : Workspace) (p : Project)
    (hws : env.GetWorkspace a.Config.WorkspaceId w = (.ok ws, w1))
    (hp : scanProjects a.Config.ProjectName ws.Projects = .ret (.ok p))
    (hurl : p.Repository.bind (fun repository => repository.Url) = none) :
    (Start env a (Run.init w)).2.trace = [Event.getWorkspace a.Config.WorkspaceId (.ok ws)] ∧
      (Start env a (Run.init w)).2.world = w1 ∧
      (p.Repository ≠ none →
        (Start env a (Run.init w)).1 = .ret (.error "repository url not found")) := by
  cases hrepo : p.Repository with
  | none =>
    simp [Start, logInfo, run_bind, run_pure, getProject_run, Run.init, hws, hp, deref, hrepo]
  | some repo =>
    have hnil : repo.Url = none := by simpa [hrepo] using hurl
    simp [Start, logInfo, run_bind, run_pure, getProject_run, Run.init, hws, hp, deref, hrepo,
      hnil]

/-- C5. When the project is resolved and its URL present, and `getGitProvider`, called in
the world the workspace fetch left, fails with an error, `Start` returns that error.  The
two ways it fails: a failure to obtain the API client, returned as it is, and a failure of
the server-configuration fetch, returned as `HandleErrorResponse` reports it.  In both the
run makes no call after the failed one: no source-control call, no user-data lookup, no
shell spawn, no mesh-network start. -/
theorem start_git_provider_fatal {σ : Type} (env : Env σ) (a : Agent σ) (w w1 : σ)
    (ws : Workspace) (p : Project) (repo : GitRepository) (url : String)
    (hws : env.GetWorkspace a.Config.WorkspaceId w = (.ok ws, w1))
    (hp : scanProjects a.Config.ProjectName ws.Projects = .ret (.ok p))
    (hrepo : p.Repository = some repo) (hurl : repo.Url = some url) :
    (∀ e tr lg,
      (getGitProvider env a url { world := w1, trace := tr, logs := lg }).1 = .ret (.error e) →
      (Start env a (Run.init w)).1 = .ret (.error e) ∧
      ∀ ev ∈ (Start env a (Run.init w)).2.trace,
        ev.op = Op.getWorkspace ∨ ev.op = Op.getApiClient ∨ ev.op = Op.getConfig) ∧
    (∀ e w2, env.GetApiClient w1 = (.error e, w2) →
      (Start env a (Run.init w)).1 = .ret (.error e) ∧
      (Start env a (Run.init w)).2.trace =
        [Event.getWorkspace a.Config.WorkspaceId (.ok ws), Event.getApiClient (.error e)] ∧
      (Start env a (Run.init w)).2.world = w2) ∧
    (∀ res e w2 w3, env.GetApiClient w1 = (.ok (), w2) →
      env.GetConfig w2 = (.error (res, e), w3) →
      (Start env a (Run.init w)).1 = .ret (.error (env.HandleErrorResponse res e)) ∧
      (Start env a (Run.init w)).2.trace =
        [Event.getWorkspace a.Config.WorkspaceId (.ok ws), Event.getApiClient (.ok ()),
          Event.getConfig (.error (res, e))] ∧
      (Start env a (Run.init w)).2.world = w3) := by
  refine ⟨?_, ?_, ?_⟩
  · intro e tr lg hfail
    rw [getGitProvider_run] at hfail
    rcases hapi : env.GetApiClient w1 with ⟨ares, w2⟩
    cases ares with
    | error e1 =>
      simp only [hapi] at hfail
      injection hfail with hfail
      injection hfail with hfail
      subst hfail
      simp [Start, logInfo, run_bind, run_pure, getProject_run, Run.init, hws, hp, deref, hrepo,
        hurl, getGitProvider_run, hapi, Event.op]
    | ok u =>
      rcases hcfg : env.GetConfig w2 with ⟨cres, w3⟩
      cases cres with
      | error re =>
        simp only [hapi, hcfg] at hfail
        injection hfail with hfail
        injection hfail with hfail
        subst hfail
        simp [Start, logInfo, run_bind, run_pure, getProject_run, Run.init, hws, hp, deref,
          hrepo, hurl, getGitProvider_run, hapi, hcfg, Event.op]
      | ok cfg =>
        simp only [hapi, hcfg] at hfail
        injection hfail with hfail
        cases hfail
  · intro e w2 hapi
    simp [Start, logInfo, run_bind, run_pure, getProject_run, Run.init, hws, hp, deref, hrepo,
      hurl, getGitProvider_run, hapi]
  · intro res e w2 w3 hapi hcfg
    simp [Start, logInfo, run_bind, run_pure, getProject_run, Run.init, hws, hp, deref, hrepo,
      hurl, getGitProvider_run, hapi, hcfg]

/-- C2 (amended). When no project of the fetched workspace is named `projectName`, the
workspace fetch is the only collaborator call of the run; when moreover every project of
the workspace has its name set, `Start` returns the error "project not found". -/
theorem start_project_not_found {σ : Type} (env : Env σ) (a : Agent σ) (w w1 : σ) (ws : Workspace)
    (hws : env.GetWorkspace a.Config.WorkspaceId w = (.ok ws, w1))
    (hno : ∀ p ∈ ws.Projects, p.Name ≠ some a.Config.ProjectName) :
    (Start env a (Run.init w)).2.trace = [Event.getWorkspace a.Config.WorkspaceId (.ok ws)] ∧
      (Start env a (Run.init w)).2.world = w1 ∧
      ((∀ p ∈ ws.Projects, p.Name ≠ none) →
        (Start env a (Run.init w)).1 = .ret (.error "project not found")) := by
  have hscan : ∀ p, scanProjects a.Config.ProjectName ws.Projects ≠ .ret (.ok p) := by
    intro p hp
    exact scanProjects_ok_name _ _ _ hp |>.2 |> hno p (scanProjects_ok_name _ _ _ hp).1
  refine ⟨?_, ?_, ?_⟩
  · cases hp : scanProjects a.Config.ProjectName ws.Projects with
    | panic site => simp [Start, logInfo, run_bind, run_pure, getProject_run, Run.init, hws, hp]
    | ret res =>
      cases res with
      | error e => simp [Start, logInfo, run_bind, run_pure, getProject_run, Run.init, hws, hp]
      | ok p => exact absurd hp (hscan p)
  · cases hp : scanProjects a.Config.ProjectName ws.Projects with
    | panic site => simp [Start, logInfo, run_bind, run_pure, getProject_run, Run.init, hws, hp]
    | ret res =>
      cases res with
      | error e => simp [Start, logInfo, run_bind, run_pure, getProject_run, Run.init, hws, hp]
      | ok p => exact absurd hp (hscan p)
  · intro hset
    simp [Start, logInfo, run_bind, run_pure, getProject_run, Run.init, hws,
      scanProjects_not_found _ _ hset hno]

/-- The scan returns the entry `p` when no entry before it matches and the visited names
are set. -/
theorem scanProjects_first (projectName : String) (p : Project) (post : List Project)
    (hp : p.Name = some projectName) :
    ∀ pre : List Project, (∀ q ∈ pre, q.Name ≠ some projectName) →
      namesSetUpToMatch projectName (pre ++ p :: post) = true →
      scanProjects projectName (pre ++ p :: post) = .ret (.ok p) := by
  intro pre
  induction pre with
  | nil =>
    intro _ _
    simp [scanProjects, hp]
  | cons q rest ih =>
    intro hpre hset
    cases hn : q.Name with
    | none => simp [namesSetUpToMatch, hn] at hset
    | some n =>
      have hne : n ≠ projectName := by
        intro h
        exact hpre q (List.mem_cons_self _ _) (by rw [hn, h])
      simp only [List.cons_append, namesSetUpToMatch, hn, if_neg hne] at hset
      simp only [List.cons_append, scanProjects, hn, if_neg hne]
      exact ih (fun x hx => hpre x (List.mem_cons_of_mem _ hx)) hset

/-- With the visited names set, the scan ends in not-found exactly when no entry matches. -/
theorem scanProjects_not_found_iff (projectName : String) (ps : List Project)
    (hset : namesSetUpToMatch projectName ps = true) :
    scanProjects projectName ps = .ret (.error "project not found") ↔
      ∀ q ∈ ps, q.Name ≠ some projectName := by
  induction ps with
  | nil => simp [scanProjects]
  | cons q rest ih =>
    cases hn : q.Name with
    | none => simp [namesSetUpToMatch, hn] at hset
    | some n =>
      by_cases hne : n = projectName
      · simp [scanProjects, hn, hne]
      · simp only [namesSetUpToMatch, hn, if_neg hne] at hset
        simp only [scanProjects, hn, if_neg hne, ih hset, List.mem_cons, forall_eq_or_imp]
        constructor
        · intro h
          refine ⟨?_, h⟩
          simpa using hne
        · intro h
          exact h.2

/-- With the visited names set, the scan does not panic. -/
theorem scanProjects_returns (projectName : String) (ps : List Project)
    (hset : namesSetUpToMatch projectName ps = true) :
    ∃ res, scanProjects projectName ps = .ret res := by
  induction ps with
  | nil => exact ⟨_, rfl⟩
  | cons q rest ih =>
    cases hn : q.Name with
    | none => simp [namesSetUpToMatch, hn] at hset
    | some n =>
      by_cases hne : n = projectName
      · exact ⟨.ok q, by simp [scanProjects, hn, hne]⟩
      · simp only [namesSetUpToMatch, hn, if_neg hne] at hset
        obtain ⟨res, hres⟩ := ih hset
        exact ⟨res, by simp only [scanProjects, hn, if_neg hne, hres]⟩

/-- C8 (amended). When every entry of the fetched workspace up to and including the first
one named `projectName` (every entry, when none is) has its name set, `getProject` returns
the earliest entry named `projectName`, also when several entries share that name, and it
fails with "project not found" exactly when no entry is so named. -/
theorem getProject_first_match {σ : Type} (env : Env σ) (a : Agent σ) (r : Run σ) (w1 : σ)
    (ws : Workspace)
    (hws : env.GetWorkspace a.Config.WorkspaceId r.world = (.ok ws, w1))
    (hset : namesSetUpToMatch a.Config.ProjectName ws.Projects = true) :
    (∀ pre p post, ws.Projects = pre ++ p :: post → p.Name = some a.Config.ProjectName →
        (∀ q ∈ pre, q.Name ≠ some a.Config.ProjectName) →
        (getProject env a r).1 = .ret (.ok p)) ∧
      ((getProject env a r).1 = .ret (.error "project not found") ↔
        ∀ q ∈ ws.Projects, q.Name ≠ some a.Config.ProjectName) := by
  have hrun : (getProject env a r).1 = scanProjects a.Config.ProjectName ws.Projects := by
    simp [getProject_run, hws]
  rw [hrun]
  refine ⟨?_, scanProjects_not_found_iff _ _ hset⟩
  intro pre p post hsplit hname hpre
  rw [hsplit] at hset ⊢
  exact scanProjects_first _ p post hname pre hpre hset

/-- C1 (amended). When the project is resolved, its URL present, the server configuration
fetched, and the provider matched for the URL (if any) has its identifier set, then
whatever `RepositoryExists`, `CloneRepository`, the user-data lookup, `SetGitConfig` and
the shell service do, the run ends with the spawn of the shell task followed by the start
of the mesh-network service, neither of them occurring earlier, and `Start` returns
exactly what the mesh-network start returned, in the world `wT` the calls before it and
the spawn left. -/
theorem start_launches_both_services {σ : Type} (env : Env σ) (a : Agent σ) (w w1 w2 w3 : σ)
    (ws : Workspace) (p : Project) (repo : GitRepository) (url : String) (cfg : ServerConfig)
    (hws : env.GetWorkspace a.Config.WorkspaceId w = (.ok ws, w1))
    (hp : scanProjects a.Config.ProjectName ws.Projects = .ret (.ok p))
    (hrepo : p.Repository = some repo) (hurl : repo.Url = some url)
    (hapi : env.GetApiClient w1 = (.ok (), w2))
    (hcfg : env.GetConfig w2 = (.ok cfg, w3))
    (hid : ∀ g, env.GetGitProviderFromHost url cfg.GitProviders = some g → g.Id ≠ none) :
    ∃ (evs : List Event) (wT : σ),
      replay env a w (evs ++ [Event.goSshStart]) = some wT ∧
      (Start env a (Run.init w)).1 = .ret (a.Tailscale.Start wT).1 ∧
      (Start env a (Run.init w)).2.trace =
        evs ++ [Event.goSshStart, Event.tailscaleStart (a.Tailscale.Start wT).1] ∧
      (∀ ev ∈ evs, ev.op ≠ Op.goSshStart ∧ ev.op ≠ Op.tailscaleStart) ∧
      (Start env a (Run.init w)).2.world = (a.Tailscale.Start wT).2 := by
  have hT := Start_threaded env a w (Run.init w) rfl
  obtain ⟨r3, _, htr3, hS⟩ := Start_resolved env a (Run.init w) hws hp hrepo hurl hapi hcfg
  obtain ⟨evsA, hshA, hrest⟩ := tail_run env a p
    (match env.GetGitProviderFromHost url cfg.GitProviders with
      | some gp => gp.Token
      | none => none) (env.GetGitProviderFromHost url cfg.GitProviders) r3
  rw [hS] at hT ⊢
  rcases hrest with ⟨g, hg, hnil, _, _⟩ | ⟨evsB, ud, sres, wT0, hshB, hres, htr, hwd⟩
  · exact absurd hnil (hid g hg)
  · have htr2 : ((materializeRepository a p
          (match env.GetGitProviderFromHost url cfg.GitProviders with
            | some gp => gp.Token
            | none => none) >>= fun _ =>
        fetchGitUserData env a (env.GetGitProviderFromHost url cfg.GitProviders) >>= fun ud =>
          configureAndLaunch env a ud) r3).2.trace =
        (r3.trace ++ evsA ++ evsB ++ [Event.setGitConfig ud sres]) ++
          [Event.goSshStart, Event.tailscaleStart (a.Tailscale.Start wT0).1] := by
      rw [htr]; simp
    rw [htr2, replay_append] at hT
    cases hE : replay env a w (r3.trace ++ evsA ++ evsB ++ [Event.setGitConfig ud sres]) with
    | none =>
      rw [hE] at hT
      simp at hT
    | some wE =>
      rw [hE] at hT
      simp only [Option.some_bind, replay] at hT
      have hR : (a.Tailscale.Start (env.Go a.Ssh.Start wE)).1 = (a.Tailscale.Start wT0).1 := by
        by_contra hne
        simp [hne] at hT
      rw [if_pos hR] at hT
      refine ⟨r3.trace ++ evsA ++ evsB ++ [Event.setGitConfig ud sres],
        env.Go a.Ssh.Start wE, ?_, ?_, ?_, ?_, ?_⟩
      · rw [replay_append, hE]
        simp [replay]
      · rw [hres, hR]
      · rw [htr2, hR]
      · intro ev hev
        rw [htr3] at hev
        simp only [Run.init, List.nil_append, List.mem_append, List.mem_cons,
          List.mem_singleton, List.not_mem_nil, or_false] at hev
        rcases hev with ((hev | hev) | hev) | hev
        · rcases hev with rfl | rfl | rfl <;> simp [Event.op]
        · rcases hshA with ⟨cres, _, rfl⟩ | ⟨_, rfl⟩
          · simp only [List.mem_cons, List.mem_singleton, List.not_mem_nil, or_false] at hev
            rcases hev with rfl | rfl <;> simp [Event.op]
          · simp only [List.mem_singleton] at hev
            subst hev
            simp [Event.op]
        · rcases hshB with ⟨_, rfl, _⟩ | ⟨g, id, _, _, ⟨e, rfl⟩ | ⟨res, rfl⟩⟩
          · simp at hev
          · simp only [List.mem_singleton] at hev
            subst hev
            simp [Event.op]
          · simp only [List.mem_cons, List.mem_singleton, List.not_mem_nil, or_false] at hev
            rcases hev with rfl | rfl <;> simp [Event.op]
        · subst hev
          simp [Event.op]
      · injection hT with hT
        exact hT.symm

/-- C6. When steps 1 to 3 succeed and host matching finds no provider for the repository
URL, no user-data lookup is made, every `CloneRepository` call of the run receives a nil
token, and `SetGitConfig` is called, and only with nil user data.  The calls are those of
the components themselves: when the repository is reported absent, `CloneRepository` runs
with a nil token in the world the existence check left, and its result is the one
recorded; `SetGitConfig nil` runs in the world `wS` the calls before it left, its result
is the one recorded, the mesh-network service starts in the world the spawn then leaves,
and the run ends in the world that start leaves; replaying the trace call by call
reproduces every recorded result and that final world. -/
theorem start_no_provider {σ : Type} (env : Env σ) (a : Agent σ) (w w1 w2 w3 : σ)
    (ws : Workspace) (p : Project) (repo : GitRepository) (url : String) (cfg : ServerConfig)
    (hws : env.GetWorkspace a.Config.WorkspaceId w = (.ok ws, w1))
    (hp : scanProjects a.Config.ProjectName ws.Projects = .ret (.ok p))
    (hrepo : p.Repository = some repo) (hurl : repo.Url = some url)
    (hapi : env.GetApiClient w1 = (.ok (), w2))
    (hcfg : env.GetConfig w2 = (.ok cfg, w3))
    (hnone : env.GetGitProviderFromHost url cfg.GitProviders = none) :
    (∀ ev ∈ (Start env a (Run.init w)).2.trace, ev.op ≠ Op.getGitUserData) ∧
      (∀ proj tok res, Event.cloneRepository proj tok res ∈ (Start env a (Run.init w)).2.trace →
        tok = none) ∧
      (∃ res, Event.setGitConfig none res ∈ (Start env a (Run.init w)).2.trace) ∧
      (∀ ud res, Event.setGitConfig ud res ∈ (Start env a (Run.init w)).2.trace → ud = none) ∧
      ((a.Git.RepositoryExists p w3).1 = .ok false →
        Event.cloneRepository p none
            (a.Git.CloneRepository p none (a.Git.RepositoryExists p w3).2).1 ∈
          (Start env a (Run.init w)).2.trace) ∧
      (∃ (pre : List Event) (wS : σ), replay env a w pre = some wS ∧
        (Start env a (Run.init w)).2.trace =
          pre ++ [Event.setGitConfig none (a.Git.SetGitConfig none wS).1, Event.goSshStart,
            Event.tailscaleStart
              (a.Tailscale.Start (env.Go a.Ssh.Start (a.Git.SetGitConfig none wS).2)).1] ∧
        (Start env a (Run.init w)).2.world =
          (a.Tailscale.Start (env.Go a.Ssh.Start (a.Git.SetGitConfig none wS).2)).2) ∧
      replay env a w (Start env a (Run.init w)).2.trace =
        some (Start env a (Run.init w)).2.world := by
  have hT := Start_threaded env a w (Run.init w) rfl
  have hT0 := hT
  obtain ⟨r3, hw3, htr3, hS⟩ := Start_resolved env a (Run.init w) hws hp hrepo hurl hapi hcfg
  obtain ⟨evsA, hshA, hrest⟩ := tail_run env a p
    (match env.GetGitProviderFromHost url cfg.GitProviders with
      | some gp => gp.Token
      | none => none) (env.GetGitProviderFromHost url cfg.GitProviders) r3
  rw [hS] at hT hT0 ⊢
  rw [hnone] at hshA hrest hT hT0 ⊢
  rw [hw3] at hshA
  rcases hrest with ⟨g, hg, _⟩ | ⟨evsB, ud, sres, wT, hshB, _, htr, _⟩
  · simp at hg
  · rcases hshB with ⟨_, rfl, rfl⟩ | ⟨g, id, hg, _⟩
    · have htr2 : ((materializeRepository a p
            (match (none : Option GitProvider) with
              | some gp => gp.Token
              | none => none) >>= fun _ =>
          fetchGitUserData env a none >>= fun ud => configureAndLaunch env a ud) r3).2.trace =
          (r3.trace ++ evsA) ++
            [Event.setGitConfig none sres, Event.goSshStart,
              Event.tailscaleStart (a.Tailscale.Start wT).1] := by
        rw [htr]; simp
      rw [htr2, replay_append] at hT
      cases hE : replay env a w (r3.trace ++ evsA) with
      | none =>
        rw [hE] at hT
        simp at hT
      | some wS =>
        rw [hE] at hT
        simp only [Option.some_bind, replay] at hT
        have hs : (a.Git.SetGitConfig none wS).1 = sres := by
          by_contra hne
          simp [hne] at hT
        rw [if_pos hs] at hT
        have hR : (a.Tailscale.Start (env.Go a.Ssh.Start (a.Git.SetGitConfig none wS).2)).1 =
            (a.Tailscale.Start wT).1 := by
          by_contra hne
          simp [hne] at hT
        rw [if_pos hR] at hT
        injection hT with hfin
        have hlast : ∃ (pre : List Event) (wS : σ), replay env a w pre = some wS ∧
            ((materializeRepository a p
              (match (none : Option GitProvider) with
                | some gp => gp.Token
                | none => none) >>= fun _ =>
            fetchGitUserData env a none >>= fun ud => configureAndLaunch env a ud) r3).2.trace =
              pre ++ [Event.setGitConfig none (a.Git.SetGitConfig none wS).1, Event.goSshStart,
                Event.tailscaleStart
                  (a.Tailscale.Start (env.Go a.Ssh.Start (a.Git.SetGitConfig none wS).2)).1] ∧
            ((materializeRepository a p
              (match (none : Option GitProvider) with
                | some gp => gp.Token
                | none => none) >>= fun _ =>
            fetchGitUserData env a none >>= fun ud => configureAndLaunch env a ud) r3).2.world =
              (a.Tailscale.Start (env.Go a.Ssh.Start (a.Git.SetGitConfig none wS).2)).2 :=
          ⟨r3.trace ++ evsA, wS, hE, by rw [htr2, hs, hR], hfin.symm⟩
        refine ⟨?_, ?_, ?_, ?_, ?_, hlast, hT0⟩
        · intro ev hev
          rw [htr2, htr3] at hev
          rcases hshA with ⟨cres, hex, rfl⟩ | ⟨hex, rfl⟩ <;>
            simp only [Run.init, List.nil_append, List.mem_append, List.mem_cons,
              List.mem_singleton, List.not_mem_nil, or_false] at hev
          · rcases hev with ((rfl | rfl | rfl) | (rfl | rfl)) | (rfl | rfl | rfl) <;>
              simp [Event.op]
          · rcases hev with ((rfl | rfl | rfl) | rfl) | (rfl | rfl | rfl) <;>
              simp [Event.op]
        · intro proj tok res hev
          rw [htr2, htr3] at hev
          rcases hshA with ⟨cres, hex, rfl⟩ | ⟨hex, rfl⟩ <;> simp [Run.init] at hev
          exact hev.2.1
        · exact ⟨sres, by rw [htr2]; simp⟩
        · intro ud res hev
          rw [htr2, htr3] at hev
          rcases hshA with ⟨cres, hex, rfl⟩ | ⟨hex, rfl⟩ <;> simp [Run.init] at hev <;>
            exact hev.1
        · intro habsent
          rcases hshA with ⟨cres, hex, rfl⟩ | ⟨hex, rfl⟩
          · rw [htr3] at hE
            simp only [Run.init, List.nil_append, List.append_assoc, List.cons_append, replay,
              hws, hapi, hcfg, hex, if_true] at hE
            have hc : (a.Git.CloneRepository p none (a.Git.RepositoryExists p w3).2).1 = cres := by
              by_contra hne
              simp [hne] at hE
            rw [htr2, hc]
            simp
          · exact absurd habsent hex
    · simp at hg

/-- The op sequences of the runs of `Start`: five without launch, and six that end with
the git configuration, the spawn and the mesh-network start. -/
theorem Start_trace_shapes {σ : Type} (env : Env σ) (a : Agent σ) (w : σ) :
    ((Start env a (Run.init w)).2.trace.map Event.op ∈
        [[Op.getWorkspace], [Op.getWorkspace, Op.getApiClient],
          [Op.getWorkspace, Op.getApiClient, Op.getConfig],
          [Op.getWorkspace, Op.getApiClient, Op.getConfig, Op.repositoryExists],
          [Op.getWorkspace, Op.getApiClient, Op.getConfig, Op.repositoryExists,
            Op.cloneRepository]]) ∨
      (∃ X ud sres res,
        (Start env a (Run.init w)).2.trace =
          X ++ [Event.setGitConfig ud sres, Event.goSshStart, Event.tailscaleStart res] ∧
        (Start env a (Run.init w)).1 = .ret res ∧
        X.map Event.op ∈
          [[Op.getWorkspace, Op.getApiClient, Op.getConfig, Op.repositoryExists],
            [Op.getWorkspace, Op.getApiClient, Op.getConfig, Op.repositoryExists,
              Op.getApiClient],
            [Op.getWorkspace, Op.getApiClient, Op.getConfig, Op.repositoryExists,
              Op.getApiClient, Op.getGitUserData],
            [Op.getWorkspace, Op.getApiClient, Op.getConfig, Op.repositoryExists,
              Op.cloneRepository],
            [Op.getWorkspace, Op.getApiClient, Op.getConfig, Op.repositoryExists,
              Op.cloneRepository, Op.getApiClient],
            [Op.getWorkspace, Op.getApiClient, Op.getConfig, Op.repositoryExists,
              Op.cloneRepository, Op.getApiClient, Op.getGitUserData]]) := by
  rcases Start_cases env a (Run.init w) with
    ⟨e, evs, _, htr, hops⟩ | ⟨ws, w1, site, _, _, _, htr⟩ | ⟨ws, w1, p, _, _, _, _, htr⟩ |
    ⟨ws, w1, w2, w3, p, repo, url, cfg, hws, hp, hrepo, hurl, hapi, hcfg⟩
  · left
    rw [htr]
    rcases hops with h | h | h <;> simp [Run.init, h]
  · left
    rw [htr]
    simp [Run.init, Event.op]
  · left
    rw [htr]
    simp [Run.init, Event.op]
  · obtain ⟨r3, _, htr3, hS⟩ := Start_resolved env a (Run.init w) hws hp hrepo hurl hapi hcfg
    obtain ⟨evsA, hshA, hrest⟩ := tail_run env a p
      (match env.GetGitProviderFromHost url cfg.GitProviders with
        | some gp => gp.Token
        | none => none) (env.GetGitProviderFromHost url cfg.GitProviders) r3
    rw [hS]
    rcases hrest with ⟨g, _, _, _, htr⟩ | ⟨evsB, ud, sres, wT, hshB, hres, htr, _⟩
    · left
      rw [htr, htr3]
      rcases hshA with ⟨cres, _, rfl⟩ | ⟨_, rfl⟩ <;> simp [Run.init, Event.op]
    · right
      refine ⟨r3.trace ++ evsA ++ evsB, ud, sres, _, htr, hres, ?_⟩
      rw [htr3]
      rcases hshB with ⟨_, rfl, _⟩ | ⟨g, id, _, _, ⟨e, rfl⟩ | ⟨res, rfl⟩⟩ <;>
        rcases hshA with ⟨cres, _, rfl⟩ | ⟨_, rfl⟩ <;> simp [Run.init, Event.op]

/-- C9. In every run of `Start`, the collaborator calls, leaving aside the two times the
API client is obtained, form an order-preserving subsequence of: workspace fetch,
server-config fetch, `RepositoryExists`, `CloneRepository`, user-data lookup,
`SetGitConfig`, spawn of the shell task, mesh-network start; each occurs at most once;
with the API client, the calls are a subsequence of the ten-step order of the source.
Every call is made in the world the call before it left on its return, the mesh-network
start in the world the spawn left, the shell task not being waited on (`replay`).
Whenever the shell task is spawned, `SetGitConfig` has been called before and neither it
nor `CloneRepository` is called after; whenever the mesh-network service is started, the
shell task has been spawned before. -/
theorem start_call_order {σ : Type} (env : Env σ) (a : Agent σ) (w : σ) :
    List.Sublist
        (((Start env a (Run.init w)).2.trace.map Event.op).filter
          (fun o => decide (o ≠ Op.getApiClient)))
        [Op.getWorkspace, Op.getConfig, Op.repositoryExists, Op.cloneRepository,
          Op.getGitUserData, Op.setGitConfig, Op.goSshStart, Op.tailscaleStart] ∧
      (((Start env a (Run.init w)).2.trace.map Event.op).filter
          (fun o => decide (o ≠ Op.getApiClient))).Nodup ∧
      List.Sublist ((Start env a (Run.init w)).2.trace.map Event.op)
        [Op.getWorkspace, Op.getApiClient, Op.getConfig, Op.repositoryExists,
          Op.cloneRepository, Op.getApiClient, Op.getGitUserData, Op.setGitConfig,
          Op.goSshStart, Op.tailscaleStart] ∧
      (∀ pre post, (Start env a (Run.init w)).2.trace = pre ++ Event.goSshStart :: post →
        (∃ ud res, Event.setGitConfig ud res ∈ pre) ∧
        ∀ ev ∈ post, ev.op ≠ Op.cloneRepository ∧ ev.op ≠ Op.setGitConfig) ∧
      (∀ pre res post,
        (Start env a (Run.init w)).2.trace = pre ++ Event.tailscaleStart res :: post →
        Event.goSshStart ∈ pre) ∧
      replay env a w (Start env a (Run.init w)).2.trace =
        some (Start env a (Run.init w)).2.world := by
  have hthr := Start_threaded env a w (Run.init w) rfl
  rcases Start_trace_shapes env a w with hmem | ⟨X, ud, sres, res, htr, _, hX⟩
  · have hgo : Op.goSshStart ∉ (Start env a (Run.init w)).2.trace.map Event.op := by
      simp only [List.mem_cons, List.mem_singleton, List.not_mem_nil, or_false] at hmem
      rcases hmem with h | h | h | h | h <;> rw [h] <;> decide
    have hts : Op.tailscaleStart ∉ (Start env a (Run.init w)).2.trace.map Event.op := by
      simp only [List.mem_cons, List.mem_singleton, List.not_mem_nil, or_false] at hmem
      rcases hmem with h | h | h | h | h <;> rw [h] <;> decide
    refine ⟨?_, ?_, ?_, ?_, ?_, hthr⟩
    · simp only [List.mem_cons, List.mem_singleton, List.not_mem_nil, or_false] at hmem
      rcases hmem with h | h | h | h | h <;> rw [h] <;> decide
    · simp only [List.mem_cons, List.mem_singleton, List.not_mem_nil, or_false] at hmem
      rcases hmem with h | h | h | h | h <;> rw [h] <;> decide
    · simp only [List.mem_cons, List.mem_singleton, List.not_mem_nil, or_false] at hmem
      rcases hmem with h | h | h | h | h <;> rw [h] <;> decide
    · intro pre post h
      exact absurd (by rw [h]; simp [Event.op]) hgo
    · intro pre res post h
      exact absurd (by rw [h]; simp [Event.op]) hts
  · have hXgo : Event.goSshStart ∉ X := by
      intro hin
      have : Op.goSshStart ∈ X.map Event.op := List.mem_map.mpr ⟨_, hin, rfl⟩
      simp only [List.mem_cons, List.mem_singleton, List.not_mem_nil, or_false] at hX
      rcases hX with h | h | h | h | h | h <;> rw [h] at this <;> simp at this
    have hXts : ∀ res1, Event.tailscaleStart res1 ∉ X := by
      intro res1 hin
      have : Op.tailscaleStart ∈ X.map Event.op := List.mem_map.mpr ⟨_, hin, rfl⟩
      simp only [List.mem_cons, List.mem_singleton, List.not_mem_nil, or_false] at hX
      rcases hX with h | h | h | h | h | h <;> rw [h] at this <;> simp at this
    have hops : (Start env a (Run.init w)).2.trace.map Event.op =
        X.map Event.op ++ [Op.setGitConfig, Op.goSshStart, Op.tailscaleStart] := by
      rw [htr]; simp [Event.op]
    refine ⟨?_, ?_, ?_, ?_, ?_, hthr⟩
    · rw [hops]
      simp only [List.mem_cons, List.mem_singleton, List.not_mem_nil, or_false] at hX
      rcases hX with h | h | h | h | h | h <;> rw [h] <;> decide
    · rw [hops]
      simp only [List.mem_cons, List.mem_singleton, List.not_mem_nil, or_false] at hX
      rcases hX with h | h | h | h | h | h <;> rw [h] <;> decide
    · rw [hops]
      simp only [List.mem_cons, List.mem_singleton, List.not_mem_nil, or_false] at hX
      rcases hX with h | h | h | h | h | h <;> rw [h] <;> decide
    · intro pre post h
      rw [htr] at h
      have h1 : (X ++ [Event.setGitConfig ud sres]) ++ Event.goSshStart ::
          [Event.tailscaleStart res] = pre ++ Event.goSshStart :: post := by
        rw [← h]; simp
      have h2 := (List.append_cons_inj_of_not_mem (by simp [hXgo]) (by simp)).mp h1
      obtain ⟨hpre, _, hpost⟩ := h2
      subst hpre
      subst hpost
      refine ⟨⟨ud, sres, by simp⟩, ?_⟩
      intro ev hev
      simp only [List.mem_singleton] at hev
      subst hev
      simp [Event.op]
    · intro pre res1 post h
      rw [htr] at h
      have h1 : (X ++ [Event.setGitConfig ud sres, Event.goSshStart]) ++
          Event.tailscaleStart res :: [] = pre ++ Event.tailscaleStart res1 :: post := by
        rw [← h]; simp
      have h2 := (List.append_cons_inj_of_not_mem (by simp [hXts]) (by simp)).mp h1
      obtain ⟨hpre, _, _⟩ := h2
      subst hpre
      simp

/-- When a visited name is unset, the scan panics at the name comparison. -/
theorem scanProjects_panics (projectName : String) (ps : List Project)
    (hset : namesSetUpToMatch projectName ps = false) :
    scanProjects projectName ps = .panic DerefSite.projectName := by
  induction ps with
  | nil => simp [namesSetUpToMatch] at hset
  | cons q rest ih =>
    cases hn : q.Name with
    | none => simp [scanProjects, hn]
    | some n =>
      by_cases hne : n = projectName
      · simp [namesSetUpToMatch, hn, hne] at hset
      · simp only [namesSetUpToMatch, hn, if_neg hne] at hset
        simp only [scanProjects, hn, if_neg hne]
        exact ih hset

/-- C10. `Start` performs no nil-pointer dereference when, in the fetched workspace, every
entry up to and including the first one named `projectName` (every entry, when none is)
has its name set, the resolved project carries repository metadata, and any provider
returned by host matching has its identifier set.  Without the precondition the
dereferences are reached: an unset name among the visited entries panics at the name
comparison, and a matched provider without identifier panics at the `getGitUserData`
call. -/
theorem start_no_nil_dereference {σ : Type} (env : Env σ) (a : Agent σ) (w : σ) :
    ((∀ ws w1, env.GetWorkspace a.Config.WorkspaceId w = (.ok ws, w1) →
          namesSetUpToMatch a.Config.ProjectName ws.Projects = true ∧
          ∀ p, scanProjects a.Config.ProjectName ws.Projects = .ret (.ok p) →
            p.Repository ≠ none) →
        (∀ ws w1 w2 w3 p repo url cfg g,
          env.GetWorkspace a.Config.WorkspaceId w = (.ok ws, w1) →
          scanProjects a.Config.ProjectName ws.Projects = .ret (.ok p) →
          p.Repository = some repo → repo.Url = some url →
          env.GetApiClient w1 = (.ok (), w2) → env.GetConfig w2 = (.ok cfg, w3) →
          env.GetGitProviderFromHost url cfg.GitProviders = some g → g.Id ≠ none) →
        ∃ res, (Start env a (Run.init w)).1 = .ret res) ∧
      (∀ ws w1, env.GetWorkspace a.Config.WorkspaceId w = (.ok ws, w1) →
        namesSetUpToMatch a.Config.ProjectName ws.Projects = false →
        (Start env a (Run.init w)).1 = .panic DerefSite.projectName) ∧
      (∀ ws w1 w2 w3 p repo url cfg g,
        env.GetWorkspace a.Config.WorkspaceId w = (.ok ws, w1) →
        scanProjects a.Config.ProjectName ws.Projects = .ret (.ok p) →
        p.Repository = some repo → repo.Url = some url →
        env.GetApiClient w1 = (.ok (), w2) → env.GetConfig w2 = (.ok cfg, w3) →
        env.GetGitProviderFromHost url cfg.GitProviders = some g → g.Id = none →
        (Start env a (Run.init w)).1 = .panic DerefSite.gitProviderId) := by
  refine ⟨?_, ?_, ?_⟩
  · intro hpre hid
    rcases Start_cases env a (Run.init w) with
      ⟨e, evs, hres, _, _⟩ | ⟨ws, w1, site, hws, hscan, _, _⟩ |
      ⟨ws, w1, p, hws, hscan, hrepo, _, _⟩ |
      ⟨ws, w1, w2, w3, p, repo, url, cfg, hws, hp, hrepo, hurl, hapi, hcfg⟩
    · exact ⟨_, hres⟩
    · obtain ⟨res, hres⟩ := scanProjects_returns _ _ (hpre ws w1 hws).1
      rw [hres] at hscan
      cases hscan
    · exact absurd hrepo ((hpre ws w1 hws).2 p hscan)
    · obtain ⟨r3, _, _, hS⟩ := Start_resolved env a (Run.init w) hws hp hrepo hurl hapi hcfg
      obtain ⟨evsA, _, hrest⟩ := tail_run env a p
        (match env.GetGitProviderFromHost url cfg.GitProviders with
          | some gp => gp.Token
          | none => none) (env.GetGitProviderFromHost url cfg.GitProviders) r3
      rw [hS]
      rcases hrest with ⟨g, hg, hnil, _, _⟩ | ⟨evsB, ud, sres, wT, _, hres, _, _⟩
      · exact absurd hnil (hid ws w1 w2 w3 p repo url cfg g hws hp hrepo hurl hapi hcfg hg)
      · exact ⟨_, hres⟩
  · intro ws w1 hws hset
    simp [Start, logInfo, run_bind, run_pure, getProject_run, Run.init, hws,
      scanProjects_panics _ _ hset]
  · intro ws w1 w2 w3 p repo url cfg g hws hp hrepo hurl hapi hcfg hg hnil
    obtain ⟨r3, _, _, hS⟩ := Start_resolved env a (Run.init w) hws hp hrepo hurl hapi hcfg
    obtain ⟨evsA, _, hrest⟩ := tail_run env a p
      (match env.GetGitProviderFromHost url cfg.GitProviders with
        | some gp => gp.Token
        | none => none) (env.GetGitProviderFromHost url cfg.GitProviders) r3
    rw [hS]
    rcases hrest with ⟨g1, _, _, hres, _⟩ | ⟨evsB, ud, sres, wT, hshB, _, _, _⟩
    · exact hres
    · rw [hg] at hshB
      rcases hshB with ⟨h, _⟩ | ⟨g1, id, h1, h2, _⟩
      · cases h
      · cases h1
        rw [hnil] at h2
        cases h2

/-- C1, the claim as stated fails: steps 1 to 3 succeed, yet the matched provider has no
identifier, and the run panics after the clone; no service is launched. -/
theorem start_launch_counterexample :
    anonymousEnv.GetWorkspace scenarioAgent.Config.WorkspaceId 0 = (.ok ws1, 1) ∧
      scanProjects scenarioAgent.Config.ProjectName ws1.Projects = .ret (.ok appProject) ∧
      appProject.Repository = some { Url := some "https://git.example.com/org/app" } ∧
      anonymousEnv.GetApiClient 1 = (.ok (), 2) ∧
      anonymousEnv.GetConfig 2 = (.ok { GitProviders := [anonymousProvider] }, 3) ∧
      (Start anonymousEnv scenarioAgent (Run.init 0)).1 =
        .panic DerefSite.gitProviderId ∧
      (Start anonymousEnv scenarioAgent (Run.init 0)).2.trace.map Event.op =
        [Op.getWorkspace, Op.getApiClient, Op.getConfig, Op.repositoryExists,
          Op.cloneRepository] :=
  ⟨rfl, rfl, rfl, rfl, rfl, rfl, rfl⟩

/-- Witness of C1 (amended): a matched provider with identifier, and a failing user-data
lookup, clone, git configuration, shell and mesh-network service. -/
theorem start_launches_both_services_witness :
    providerEnv.GetWorkspace failingAgent.Config.WorkspaceId 0 = (.ok ws1, 1) ∧
      scanProjects failingAgent.Config.ProjectName ws1.Projects = .ret (.ok appProject) ∧
      providerEnv.GetApiClient 1 = (.ok (), 2) ∧
      providerEnv.GetConfig 2 = (.ok { GitProviders := [exampleProvider] }, 3) ∧
      providerEnv.GetGitProviderFromHost "https://git.example.com/org/app"
        [exampleProvider] = some exampleProvider ∧
      exampleProvider.Id = some "gitea" ∧
      (Start providerEnv failingAgent (Run.init 0)).1 = .ret (.error "mesh down") ∧
      ∃ (evs : List Event) (wT : Nat),
        replay providerEnv failingAgent 0 (evs ++ [Event.goSshStart]) = some wT ∧
        (Start providerEnv failingAgent (Run.init 0)).1 =
          .ret (failingAgent.Tailscale.Start wT).1 ∧
        (Start providerEnv failingAgent (Run.init 0)).2.trace =
          evs ++ [Event.goSshStart, Event.tailscaleStart (failingAgent.Tailscale.Start wT).1] ∧
        (∀ ev ∈ evs, ev.op ≠ Op.goSshStart ∧ ev.op ≠ Op.tailscaleStart) ∧
        (Start providerEnv failingAgent (Run.init 0)).2.world =
          (failingAgent.Tailscale.Start wT).2 :=
  ⟨rfl, rfl, rfl, rfl, rfl, rfl, rfl,
    start_launches_both_services providerEnv failingAgent 0 1 2 3 ws1 appProject
      { Url := some "https://git.example.com/org/app" } "https://git.example.com/org/app"
      { GitProviders := [exampleProvider] } rfl rfl rfl rfl rfl rfl
      (by intro g hg; cases hg; simp [exampleProvider])⟩

/-- C2, the claim as stated fails: no project of the workspace is named "app", yet one has
no name at all, and `Start` panics at the name comparison instead of returning the
not-found error. -/
theorem start_not_found_counterexample :
    (workspaceEnv { Id := "ws1", Projects := [docsProject, unnamedProject] }
        []).GetWorkspace scenarioAgent.Config.WorkspaceId 0 =
        (.ok { Id := "ws1", Projects := [docsProject, unnamedProject] }, 1) ∧
      (∀ p ∈ [docsProject, unnamedProject], p.Name ≠ some scenarioAgent.Config.ProjectName) ∧
      (Start (workspaceEnv { Id := "ws1", Projects := [docsProject, unnamedProject] } [])
        scenarioAgent (Run.init 0)).1 = .panic DerefSite.projectName ∧
      (Start (workspaceEnv { Id := "ws1", Projects := [docsProject, unnamedProject] } [])
        scenarioAgent (Run.init 0)).1 ≠ .ret (.error "project not found") :=
  ⟨rfl, by decide, rfl, by decide⟩

/-- Witness of C2 (amended): a workspace whose only project is "docs". -/
theorem start_project_not_found_witness :
    (workspaceEnv { Id := "ws1", Projects := [docsProject] } []).GetWorkspace
        scenarioAgent.Config.WorkspaceId 0 = (.ok { Id := "ws1", Projects := [docsProject] }, 1) ∧
      (∀ p ∈ [docsProject], p.Name ≠ some scenarioAgent.Config.ProjectName) ∧
      (∀ p ∈ [docsProject], p.Name ≠ none) ∧
      (Start (workspaceEnv { Id := "ws1", Projects := [docsProject] } []) scenarioAgent
        (Run.init 0)).2.trace =
        [Event.getWorkspace "ws1" (.ok { Id := "ws1", Projects := [docsProject] })] ∧
      (Start (workspaceEnv { Id := "ws1", Projects := [docsProject] } []) scenarioAgent
        (Run.init 0)).2.world = 1 ∧
      (Start (workspaceEnv { Id := "ws1", Projects := [docsProject] } []) scenarioAgent
        (Run.init 0)).1 = .ret (.error "project not found") :=
  have h := start_project_not_found
    (workspaceEnv { Id := "ws1", Projects := [docsProject] } []) scenarioAgent 0 1
    { Id := "ws1", Projects := [docsProject] } rfl (by decide)
  ⟨rfl, by decide, by decide, h.1, h.2.1, h.2.2 (by decide)⟩

/-- Witness of C3: the workspace fetch is refused. -/
theorem start_workspace_fetch_error_witness :
    offlineEnv.GetWorkspace scenarioAgent.Config.WorkspaceId 0 =
        (.error "connection refused", 1) ∧
      (Start offlineEnv scenarioAgent (Run.init 0)).1 =
        .ret (.error "connection refused") ∧
      (Start offlineEnv scenarioAgent (Run.init 0)).2.trace =
        [Event.getWorkspace scenarioAgent.Config.WorkspaceId (.error "connection refused")] ∧
      (Start offlineEnv scenarioAgent (Run.init 0)).2.world = 1 :=
  ⟨rfl, start_workspace_fetch_error offlineEnv scenarioAgent 0 1 "connection refused" rfl⟩

/-- C4, the claim as stated fails: the resolved project "app" carries no repository
metadata, hence no repository URL, and `Start` panics at the dereference of line 26
instead of returning the error "repository url not found". -/
theorem start_url_absent_counterexample :
    (workspaceEnv { Id := "ws1", Projects := [docsProject, appNoRepository] } []).GetWorkspace
        scenarioAgent.Config.WorkspaceId 0 =
        (.ok { Id := "ws1", Projects := [docsProject, appNoRepository] }, 1) ∧
      scanProjects scenarioAgent.Config.ProjectName [docsProject, appNoRepository] =
        .ret (.ok appNoRepository) ∧
      appNoRepository.Repository.bind (fun repository => repository.Url) = none ∧
      (Start (workspaceEnv { Id := "ws1", Projects := [docsProject, appNoRepository] } [])
        scenarioAgent (Run.init 0)).1 = .panic DerefSite.projectRepository ∧
      (Start (workspaceEnv { Id := "ws1", Projects := [docsProject, appNoRepository] } [])
        scenarioAgent (Run.init 0)).1 ≠ .ret (.error "repository url not found") :=
  ⟨rfl, rfl, rfl, rfl, by decide⟩

/-- Witness of C4 (amended): the project "app" has a repository without URL. -/
theorem start_repository_url_not_found_witness :
    (workspaceEnv { Id := "ws1", Projects := [docsProject, appNoUrl] } []).GetWorkspace
        scenarioAgent.Config.WorkspaceId 0 =
        (.ok { Id := "ws1", Projects := [docsProject, appNoUrl] }, 1) ∧
      scanProjects scenarioAgent.Config.ProjectName [docsProject, appNoUrl] =
        .ret (.ok appNoUrl) ∧
      appNoUrl.Repository.bind (fun repository => repository.Url) = none ∧
      appNoUrl.Repository ≠ none ∧
      (Start (workspaceEnv { Id := "ws1", Projects := [docsProject, appNoUrl] } [])
        scenarioAgent (Run.init 0)).2.trace =
        [Event.getWorkspace scenarioAgent.Config.WorkspaceId
          (.ok { Id := "ws1", Projects := [docsProject, appNoUrl] })] ∧
      (Start (workspaceEnv { Id := "ws1", Projects := [docsProject, appNoUrl] } [])
        scenarioAgent (Run.init 0)).2.world = 1 ∧
      (Start (workspaceEnv { Id := "ws1", Projects := [docsProject, appNoUrl] } [])
        scenarioAgent (Run.init 0)).1 = .ret (.error "repository url not found") :=
  have h := start_repository_url_not_found
    (workspaceEnv { Id := "ws1", Projects := [docsProject, appNoUrl] } []) scenarioAgent
    0 1 { Id := "ws1", Projects := [docsProject, appNoUrl] } appNoUrl rfl rfl rfl
  ⟨rfl, rfl, rfl, by decide, h.1, h.2.1, h.2.2 (by decide)⟩

/-- Witness of C5: one run where the API client cannot be obtained, one where the
server-configuration fetch fails. -/
theorem start_git_provider_fatal_witness :
    (noClientEnv.GetWorkspace scenarioAgent.Config.WorkspaceId 0 = (.ok ws1, 1) ∧
        noClientEnv.GetApiClient 1 = (.error "no server url", 2) ∧
        (Start noClientEnv scenarioAgent (Run.init 0)).1 = .ret (.error "no server url") ∧
        (Start noClientEnv scenarioAgent (Run.init 0)).2.trace =
          [Event.getWorkspace scenarioAgent.Config.WorkspaceId (.ok ws1),
            Event.getApiClient (.error "no server url")] ∧
        (Start noClientEnv scenarioAgent (Run.init 0)).2.world = 2) ∧
      (noConfigEnv.GetWorkspace scenarioAgent.Config.WorkspaceId 0 = (.ok ws1, 1) ∧
        noConfigEnv.GetApiClient 1 = (.ok (), 2) ∧
        noConfigEnv.GetConfig 2 =
          (.error (some { StatusCode := 503, Body := "server unavailable" }, "503"), 3) ∧
        (Start noConfigEnv scenarioAgent (Run.init 0)).1 =
          .ret (.error (noConfigEnv.HandleErrorResponse
            (some { StatusCode := 503, Body := "server unavailable" }) "503")) ∧
        (Start noConfigEnv scenarioAgent (Run.init 0)).2.trace =
          [Event.getWorkspace scenarioAgent.Config.WorkspaceId (.ok ws1),
            Event.getApiClient (.ok ()),
            Event.getConfig
              (.error (some { StatusCode := 503, Body := "server unavailable" }, "503"))] ∧
        (Start noConfigEnv scenarioAgent (Run.init 0)).2.world = 3) :=
  ⟨⟨rfl, rfl,
      (start_git_provider_fatal noClientEnv scenarioAgent 0 1 ws1 appProject
        { Url := some "https://git.example.com/org/app" } "https://git.example.com/org/app"
        rfl rfl rfl rfl).2.1 "no server url" 2 rfl⟩,
    ⟨rfl, rfl, rfl,
      (start_git_provider_fatal noConfigEnv scenarioAgent 0 1 ws1 appProject
        { Url := some "https://git.example.com/org/app" } "https://git.example.com/org/app"
        rfl rfl rfl rfl).2.2 (some { StatusCode := 503, Body := "server unavailable" }) "503" 2 3
        rfl rfl⟩⟩

/-- Witness of C6: the scenario of the spec, with the whole trace of the run and the world
it ends in, eight calls after the start. -/
theorem start_no_provider_witness :
    scenarioEnv.GetWorkspace scenarioAgent.Config.WorkspaceId 0 = (.ok ws1, 1) ∧
      scanProjects scenarioAgent.Config.ProjectName ws1.Projects = .ret (.ok appProject) ∧
      scenarioEnv.GetApiClient 1 = (.ok (), 2) ∧
      scenarioEnv.GetConfig 2 = (.ok { GitProviders := [] }, 3) ∧
      scenarioEnv.GetGitProviderFromHost "https://git.example.com/org/app" [] = none ∧
      (scenarioAgent.Git.RepositoryExists appProject 3).1 = .ok false ∧
      (Start scenarioEnv scenarioAgent (Run.init 0)).2.trace =
        [Event.getWorkspace "ws1" (.ok ws1), Event.getApiClient (.ok ()),
          Event.getConfig (.ok { GitProviders := [] }),
          Event.repositoryExists appProject (.ok false),
          Event.cloneRepository appProject none (.ok ()),
          Event.setGitConfig none (.ok ()), Event.goSshStart, Event.tailscaleStart (.ok ())] ∧
      (Start scenarioEnv scenarioAgent (Run.init 0)).2.world = 8 ∧
      ((∀ ev ∈ (Start scenarioEnv scenarioAgent (Run.init 0)).2.trace,
          ev.op ≠ Op.getGitUserData) ∧
        (∀ proj tok res, Event.cloneRepository proj tok res ∈
            (Start scenarioEnv scenarioAgent (Run.init 0)).2.trace → tok = none) ∧
        (∃ res, Event.setGitConfig none res ∈
          (Start scenarioEnv scenarioAgent (Run.init 0)).2.trace) ∧
        (∀ ud res, Event.setGitConfig ud res ∈
          (Start scenarioEnv scenarioAgent (Run.init 0)).2.trace → ud = none) ∧
        ((scenarioAgent.Git.RepositoryExists appProject 3).1 = .ok false →
          Event.cloneRepository appProject none
              (scenarioAgent.Git.CloneRepository appProject none
                (scenarioAgent.Git.RepositoryExists appProject 3).2).1 ∈
            (Start scenarioEnv scenarioAgent (Run.init 0)).2.trace) ∧
        (∃ (pre : List Event) (wS : Nat), replay scenarioEnv scenarioAgent 0 pre = some wS ∧
          (Start scenarioEnv scenarioAgent (Run.init 0)).2.trace =
            pre ++ [Event.setGitConfig none (scenarioAgent.Git.SetGitConfig none wS).1,
              Event.goSshStart,
              Event.tailscaleStart
                (scenarioAgent.Tailscale.Start
                  (scenarioEnv.Go scenarioAgent.Ssh.Start
                    (scenarioAgent.Git.SetGitConfig none wS).2)).1] ∧
          (Start scenarioEnv scenarioAgent (Run.init 0)).2.world =
            (scenarioAgent.Tailscale.Start
              (scenarioEnv.Go scenarioAgent.Ssh.Start
                (scenarioAgent.Git.SetGitConfig none wS).2)).2) ∧
        replay scenarioEnv scenarioAgent 0
            (Start scenarioEnv scenarioAgent (Run.init 0)).2.trace =
          some (Start scenarioEnv scenarioAgent (Run.init 0)).2.world) :=
  ⟨rfl, rfl, rfl, rfl, rfl, rfl, rfl, rfl,
    start_no_provider scenarioEnv scenarioAgent 0 1 2 3 ws1 appProject
      { Url := some "https://git.example.com/org/app" } "https://git.example.com/org/app"
      { GitProviders := [] } rfl rfl rfl rfl rfl rfl rfl⟩

/-- C8, the claim as stated fails: the workspace contains a project named "app", its
earliest such entry is `appProject`, yet the entry before it has no name, and
`getProject` panics at the name comparison instead of returning `appProject`. -/
theorem getProject_counterexample :
    (workspaceEnv { Id := "ws1", Projects := [unnamedProject, appProject] }
        []).GetWorkspace scenarioAgent.Config.WorkspaceId 0 =
        (.ok { Id := "ws1", Projects := [unnamedProject, appProject] }, 1) ∧
      appProject ∈ [unnamedProject, appProject] ∧
      appProject.Name = some scenarioAgent.Config.ProjectName ∧
      (∀ q ∈ [unnamedProject], q.Name ≠ some scenarioAgent.Config.ProjectName) ∧
      (getProject (workspaceEnv { Id := "ws1", Projects := [unnamedProject, appProject] }
        []) scenarioAgent (Run.init 0)).1 = .panic DerefSite.projectName ∧
      (getProject (workspaceEnv { Id := "ws1", Projects := [unnamedProject, appProject] }
        []) scenarioAgent (Run.init 0)).1 ≠ .ret (.ok appProject) :=
  ⟨rfl, by decide, rfl, by decide, rfl, by decide⟩

/-- Witness of C8 (amended): two projects named "app" after one named "docs"; the first
of the two is returned. -/
theorem getProject_first_match_witness :
    (workspaceEnv { Id := "ws1", Projects := [docsProject, appProject, appFork] }
        []).GetWorkspace scenarioAgent.Config.WorkspaceId (Run.init 0).world =
        (.ok { Id := "ws1", Projects := [docsProject, appProject, appFork] }, 1) ∧
      namesSetUpToMatch scenarioAgent.Config.ProjectName [docsProject, appProject, appFork] =
        true ∧
      appFork.Name = some scenarioAgent.Config.ProjectName ∧
      (getProject (workspaceEnv
        { Id := "ws1", Projects := [docsProject, appProject, appFork] } []) scenarioAgent
        (Run.init 0)).1 = .ret (.ok appProject) :=
  ⟨rfl, rfl, rfl,
    (getProject_first_match
      (workspaceEnv { Id := "ws1", Projects := [docsProject, appProject, appFork] } [])
      scenarioAgent (Run.init 0) 1
      { Id := "ws1", Projects := [docsProject, appProject, appFork] } rfl rfl).1
      [docsProject] appProject [appFork] rfl rfl (by decide)⟩

/-- Witness of C10: a run that meets the precondition, and the two panics. -/
theorem start_no_nil_dereference_witness :
    (∃ res, (Start providerEnv scenarioAgent (Run.init 0)).1 = .ret res) ∧
      (Start (workspaceEnv { Id := "ws1", Projects := [unnamedProject, appProject] } [])
        scenarioAgent (Run.init 0)).1 = .panic DerefSite.projectName ∧
      (Start anonymousEnv scenarioAgent (Run.init 0)).1 = .panic DerefSite.gitProviderId :=
  ⟨(start_no_nil_dereference providerEnv scenarioAgent 0).1
      (by
        intro ws w1 h
        cases h
        refine ⟨rfl, ?_⟩
        intro p hp
        cases hp
        simp [appProject])
      (by
        intro ws w1 w2 w3 p repo url cfg g _ _ _ _ _ hcfg hg
        cases hcfg
        cases hg
        simp [exampleProvider]),
    (start_no_nil_dereference
      (workspaceEnv { Id := "ws1", Projects := [unnamedProject, appProject] } [])
      scenarioAgent 0).2.1 { Id := "ws1", Projects := [unnamedProject, appProject] } 1 rfl rfl,
    (start_no_nil_dereference anonymousEnv scenarioAgent 0).2.2 ws1 1 2 3 appProject
      { Url := some "https://git.example.com/org/app" } "https://git.example.com/org/app"
      { GitProviders := [anonymousProvider] } anonymousProvider rfl rfl rfl rfl rfl rfl rfl rfl⟩

end Agent
